import Mathlib

/-!
Shallow embedding of the strategy module in src/player_ai.py (team
"The Wise Riders"): a game AI whose method run is called once per tick by the
host engine.  Python floats are modelled as rationals, np.random.random() as
an externally supplied stream of rationals read at a running index,
the per-uid Python dictionaries as functions sending a uid to an optional
value (their iteration order is never observed by the code), the info
dictionary as an association list in iteration order, and the side-effecting
entity method calls as an emitted list of commands.  A call that would raise
an uncaught Python exception is modelled as an error value.
-/

namespace PlayerAi

/-- The module-level constant CREATOR, the team name. -/
def CREATOR : String := "The Wise Riders"

/-- A host base object: exactly the fields and methods the AI reads.
The field cost models the host method base.cost(kind). -/
structure Base where
  uid : Nat
  x : ℚ
  y : ℚ
  crystal : ℚ
  mines : Nat
  cost : String → ℚ

/-- A host tank object.  The flag goto_fails models whether the host would
raise an exception from tank.goto on this tick (the code catches it). -/
structure Tank where
  uid : Nat
  x : ℚ
  y : ℚ
  stopped : Bool
  goto_fails : Bool

/-- The numpy position attribute of a tank, as a pair. -/
def Tank.position (t : Tank) : ℚ × ℚ := (t.x, t.y)

/-- A host ship object.  owner_x / owner_y model ship.owner.x / ship.owner.y,
and get_distance models the host method ship.get_distance. -/
structure Ship where
  uid : Nat
  x : ℚ
  y : ℚ
  owner_x : ℚ
  owner_y : ℚ
  get_distance : ℚ → ℚ → ℚ

/-- The numpy position attribute of a ship, as a pair. -/
def Ship.position (s : Ship) : ℚ × ℚ := (s.x, s.y)

/-- A host jet object (only its uid is read). -/
structure Jet where
  uid : Nat

/-- One value of the info dictionary: a team record.  Each Python key is
optional (absent key = none); .get(key, []) is modelled by Option.getD. -/
structure TeamRecord where
  bases : Option (List Base)
  tanks : Option (List Tank)
  ships : Option (List Ship)
  jets : Option (List Jet)

/-- The observable side-effecting calls the AI issues on host objects. -/
inductive Command where
  | build_mine (baseUid : Nat)
  | build_tank (baseUid : Nat) (heading : ℚ)
  | build_ship (baseUid : Nat) (heading : ℚ)
  | build_jet (baseUid : Nat) (heading : ℚ)
  | set_heading (uid : Nat) (heading : ℚ)
  | goto (uid : Nat) (x : ℚ) (y : ℚ)
  | convert_to_base (uid : Nat)
deriving DecidableEq

/-- Point update of a uid-keyed dictionary. -/
def upd {β : Type} (m : Nat → Option β) (k : Nat) (v : β) : Nat → Option β :=
  fun k' => if k' = k then some v else m k'

/-- The mutable attributes of the PlayerAi instance. -/
structure AgentState where
  previous_positions : Nat → Option (ℚ × ℚ)
  ntanks : Nat → Option Nat
  nships : Nat → Option Nat

/-- The state set up by PlayerAi.__init__: all three dictionaries empty. -/
def initState : AgentState :=
  { previous_positions := fun _ => none, ntanks := fun _ => none, nships := fun _ => none }

/-- Model of Python's sorted(xs, key=key) (ascending, stable).  Insertion
sort with the reflexive key comparison is stable in the same way. -/
def pySorted {α : Type} (key : α → ℚ) (xs : List α) : List α :=
  xs.insertionSort (fun a b => key a ≤ key b)

/-- The accumulator threaded through every loop of the embedding: agent
state, commands issued so far, and the read position in the random stream. -/
abbrev Acc := AgentState × List Command × Nat

/-- The effect of one loop iteration: the updated agent state, the commands
this iteration issues, and the new stream index. -/
abbrev Eff := AgentState × List Command × Nat

/-- Threads a per-element effect through the loop accumulator, appending the
issued commands to the log. -/
def mkStep {β : Type} (act : AgentState → Nat → β → Eff) (acc : Acc) (x : β) : Acc :=
  let (st, cmds, ridx) := acc
  let (st', d, ridx') := act st ridx x
  (st', cmds ++ d, ridx')

/-- The lazy counter registration at the top of each strategy loop body:
if base.uid not in self.ntanks / self.nships, set it to 0. -/
def registerBase (st : AgentState) (uid : Nat) : AgentState :=
  let st1 := if (st.ntanks uid).isSome then st else { st with ntanks := upd st.ntanks uid 0 }
  if (st1.nships uid).isSome then st1 else { st1 with nships := upd st1.nships uid 0 }

/-- The loop body of strategy_early for one base (max_mines_per_base = 3,
max_ships_per_base = 6). -/
def earlyAct (rng : Nat → ℚ) (st0 : AgentState) (ridx : Nat) (base : Base) : Eff :=
  let st := registerBase st0 base.uid
  let nt := (st.ntanks base.uid).getD 0
  let ns := (st.nships base.uid).getD 0
  if base.mines < 3 then
    if base.crystal > base.cost "mine" then (st, [Command.build_mine base.uid], ridx)
    else (st, [], ridx)
  else if base.crystal > base.cost "tank" ∧ nt < 2 then
    ({ st with ntanks := upd st.ntanks base.uid (nt + 1) },
      [Command.build_tank base.uid (360 * rng ridx)], ridx + 1)
  else if base.crystal > base.cost "ship" ∧ ns < 6 then
    ({ st with nships := upd st.nships base.uid (ns + 1) },
      [Command.build_ship base.uid (360 * rng ridx)], ridx + 1)
  else if base.crystal > base.cost "tank" ∧ nt < 5 ∧ ns ≥ 6 then
    ({ st with ntanks := upd st.ntanks base.uid (nt + 1) },
      [Command.build_tank base.uid (360 * rng ridx)], ridx + 1)
  else if base.crystal > base.cost "jet" then
    (st, [Command.build_jet base.uid (360 * rng ridx)], ridx + 1)
  else (st, [], ridx)

/-- The loop body of strategy_midgame for one base. -/
def midAct (rng : Nat → ℚ) (st0 : AgentState) (ridx : Nat) (base : Base) : Eff :=
  let st := registerBase st0 base.uid
  let nt := (st.ntanks base.uid).getD 0
  let ns := (st.nships base.uid).getD 0
  if base.mines < 2 then
    if base.crystal > base.cost "mine" then (st, [Command.build_mine base.uid], ridx)
    else (st, [], ridx)
  else if base.crystal > base.cost "tank" ∧ nt < 2 then
    ({ st with ntanks := upd st.ntanks base.uid (nt + 1) },
      [Command.build_tank base.uid (360 * rng ridx)], ridx + 1)
  else if base.crystal > base.cost "ship" ∧ ns < 2 then
    ({ st with nships := upd st.nships base.uid (ns + 1) },
      [Command.build_ship base.uid (360 * rng ridx)], ridx + 1)
  else if base.crystal > base.cost "jet" then
    (st, [Command.build_jet base.uid (360 * rng ridx)], ridx + 1)
  else (st, [], ridx)

/-- The loop body of strategy_lategame for one base. -/
def lateAct (rng : Nat → ℚ) (st0 : AgentState) (ridx : Nat) (base : Base) : Eff :=
  let st := registerBase st0 base.uid
  if base.crystal > base.cost "jet" then
    (st, [Command.build_jet base.uid (360 * rng ridx)], ridx + 1)
  else (st, [], ridx)

/-- strategy_early: myinfo = info[self.team]; then for base in myinfo["bases"].
A missing team or a missing "bases" key raises KeyError. -/
def strategy_early (st : AgentState) (team : String) (info : List (String × TeamRecord))
    (rng : Nat → ℚ) (ridx : Nat) : Except String Acc :=
  match info.lookup team with
  | none => Except.error "KeyError: team"
  | some myinfo =>
    match myinfo.bases with
    | none => Except.error "KeyError: bases"
    | some bases => Except.ok (bases.foldl (mkStep (earlyAct rng)) (st, [], ridx))

/-- strategy_midgame, same shape as strategy_early. -/
def strategy_midgame (st : AgentState) (team : String) (info : List (String × TeamRecord))
    (rng : Nat → ℚ) (ridx : Nat) : Except String Acc :=
  match info.lookup team with
  | none => Except.error "KeyError: team"
  | some myinfo =>
    match myinfo.bases with
    | none => Except.error "KeyError: bases"
    | some bases => Except.ok (bases.foldl (mkStep (midAct rng)) (st, [], ridx))

/-- strategy_lategame, same shape as strategy_early. -/
def strategy_lategame (st : AgentState) (team : String) (info : List (String × TeamRecord))
    (rng : Nat → ℚ) (ridx : Nat) : Except String Acc :=
  match info.lookup team with
  | none => Except.error "KeyError: team"
  | some myinfo =>
    match myinfo.bases with
    | none => Except.error "KeyError: bases"
    | some bases => Except.ok (bases.foldl (mkStep (lateAct rng)) (st, [], ridx))

/-- One iteration of the dead target loop in run (lines 61 to 67): when the
name is not mine and the record has a "bases" key, index its first base;
indexing an empty list raises IndexError. -/
def deadTargetStep (team : String) (target : Option (ℚ × ℚ)) (p : String × TeamRecord) :
    Except String (Option (ℚ × ℚ)) :=
  if p.1 ≠ team then
    match p.2.bases with
    | some [] => Except.error "IndexError: bases"
    | some (b :: _) => Except.ok (some (b.x, b.y))
    | none => Except.ok target
  else Except.ok target

/-- The dead target computation in run (lines 58 to 67).  The result is never
read, but the loop can raise, and it runs only when more than one team is
present. -/
def deadTarget (team : String) (info : List (String × TeamRecord)) :
    Except String (Option (ℚ × ℚ)) :=
  if 1 < info.length then info.foldlM (deadTargetStep team) none
  else Except.ok none

/-- The list comprehension in the tank loop: every base of every team other
than mine, in info order, with a missing "bases" key read as empty. -/
def enemyBases (team : String) (info : List (String × TeamRecord)) : List Base :=
  ((info.filter fun p => p.1 ≠ team).map fun p => p.2.bases.getD []).flatten

/-- The loop body of the tank loop in run (lines 72 to 92) for one tank. -/
def tankAct (team : String) (info : List (String × TeamRecord)) (rng : Nat → ℚ)
    (st : AgentState) (ridx : Nat) (tank : Tank) : Eff :=
  let nearest_base :=
    pySorted (fun b => (b.x - tank.x) ^ 2 + (b.y - tank.y) ^ 2) (enemyBases team info)
  let tank_target : Option Base := nearest_base.head?
  let rec0 := { st with previous_positions := upd st.previous_positions tank.uid tank.position }
  match st.previous_positions tank.uid, tank.stopped with
  | some prev, false =>
    if tank.position = prev then
      (rec0, [Command.set_heading tank.uid (rng ridx * 360)], ridx + 1)
    else
      match tank_target with
      | some tb =>
        if tank.goto_fails then (rec0, [], ridx)
        else (rec0, [Command.goto tank.uid tb.x tb.y], ridx)
      | none => (rec0, [], ridx)
  | _, _ => (rec0, [], ridx)

/-- The loop body of the ship loop in run (lines 94 to 107) for one ship. -/
def shipAct (rng : Nat → ℚ) (st : AgentState) (ridx : Nat) (ship : Ship) : Eff :=
  let rec0 := { st with previous_positions := upd st.previous_positions ship.uid ship.position }
  match st.previous_positions ship.uid with
  | some prev =>
    if ship.position = prev then
      if ship.get_distance ship.owner_x ship.owner_y > 20 then
        (rec0, [Command.convert_to_base ship.uid], ridx)
      else
        (rec0, [Command.set_heading ship.uid (rng ridx * 360)], ridx + 1)
    else (rec0, [], ridx)
  | none => (rec0, [], ridx)

/-- determine_base_power from run: mines * 10 + crystal / 10. -/
def determine_base_power (base : Base) : ℚ :=
  base.mines * 10 + base.crystal / 10

/-- determine_power from run: 100 * number of bases plus the sum of the base
powers, with a missing "bases" key read as empty. -/
def determine_power (team : TeamRecord) : ℚ :=
  100 * (team.bases.getD []).length + ((team.bases.getD []).map determine_base_power).sum

/-- The live target computation in run (lines 109 to 130): sort the enemy
teams by power and take the last; inside it sort the bases by base power and
take the last; fall back to (75, 75) when the strongest enemy has no bases. -/
def powerTarget (team : String) (info : List (String × TeamRecord)) : Option (ℚ × ℚ) :=
  if 1 < info.length then
    let teams := (info.filter fun p => p.1 ≠ team).map Prod.snd
    let by_power := pySorted determine_power teams
    match by_power.getLast? with
    | none => none
    | some strongest_enemy =>
      if strongest_enemy.bases.isSome = false then some (75, 75)
      else
        match (pySorted determine_base_power (strongest_enemy.bases.getD [])).getLast? with
        | none => some (75, 75)
        | some strongest_base => some (strongest_base.x, strongest_base.y)
  else none

/-- The tank loop of run: skipped when myinfo has no "tanks" key. -/
def tanksPhase (team : String) (info : List (String × TeamRecord)) (rng : Nat → ℚ)
    (myinfo : TeamRecord) (acc : Acc) : Acc :=
  match myinfo.tanks with
  | none => acc
  | some tanks => tanks.foldl (mkStep (tankAct team info rng)) acc

/-- The ship loop of run: skipped when myinfo has no "ships" key. -/
def shipsPhase (rng : Nat → ℚ) (myinfo : TeamRecord) (acc : Acc) : Acc :=
  match myinfo.ships with
  | none => acc
  | some ships => ships.foldl (mkStep (shipAct rng)) acc

/-- The jet loop of run (lines 132 to 137): every jet goes to the target when
there is one; skipped when myinfo has no "jets" key. -/
def jetsPhase (myinfo : TeamRecord) (target : Option (ℚ × ℚ)) (acc : Acc) : Acc :=
  let (st, cmds, ridx) := acc
  match myinfo.jets with
  | none => (st, cmds, ridx)
  | some jets =>
    match target with
    | none => (st, cmds, ridx)
    | some tp => (st, cmds ++ jets.map (fun jet => Command.goto jet.uid tp.1 tp.2), ridx)

/-- The three strategy phases. -/
inductive Phase where
  | early
  | mid
  | late
deriving DecidableEq

/-- The phase dispatch at the top of run: t < 180 early, t < 360 mid,
otherwise late. -/
def phaseOf (t : ℚ) : Phase :=
  if t < 180 then Phase.early else if t < 360 then Phase.mid else Phase.late

/-- The strategy method selected for a phase. -/
def strategyFor : Phase → AgentState → String → List (String × TeamRecord) →
    (Nat → ℚ) → Nat → Except String Acc
  | Phase.early => strategy_early
  | Phase.mid => strategy_midgame
  | Phase.late => strategy_lategame

/-- PlayerAi.run.  Inputs: agent state, self.team, t, dt, info in iteration
order, the random stream and the read index.  dt and the game map are unused
by the source, as here.  Output: the new agent state, the commands issued on
host objects in program order, and the advanced stream index; or the
uncaught exception. -/
def run (st : AgentState) (team : String) (t : ℚ) (dt : ℚ)
    (info : List (String × TeamRecord)) (rng : Nat → ℚ) (ridx : Nat) :
    Except String Acc :=
  match strategyFor (phaseOf t) st team info rng ridx with
  | Except.error e => Except.error e
  | Except.ok acc1 =>
    match info.lookup team with
    | none => Except.error "KeyError: team"
    | some myinfo =>
      match deadTarget team info with
      | Except.error e => Except.error e
      | Except.ok _ =>
        Except.ok (jetsPhase myinfo (powerTarget team info)
          (shipsPhase rng myinfo (tanksPhase team info rng myinfo acc1)))

/-- The command list of a run, when it completes. -/
def runCmds (st : AgentState) (team : String) (t : ℚ) (dt : ℚ)
    (info : List (String × TeamRecord)) (rng : Nat → ℚ) (ridx : Nat) :
    Except String (List Command) :=
  (run st team t dt info rng ridx).map fun out => out.2.1

/-! Generic machinery about the loop accumulators: every loop body only
appends to the command list, and neither the state it produces nor the
commands it appends depend on the commands accumulated so far. -/

/-- The commands a loop appends, starting from an empty command log. -/
def foldDelta {β : Type} (act : AgentState → Nat → β → Eff) (st : AgentState) (r : Nat)
    (l : List β) : List Command :=
  (l.foldl (mkStep act) (st, [], r)).2.1

/-- The state a loop ends in. -/
def foldState {β : Type} (act : AgentState → Nat → β → Eff) (st : AgentState) (r : Nat)
    (l : List β) : AgentState :=
  (l.foldl (mkStep act) (st, [], r)).1

/-- The stream index a loop ends at. -/
def foldRidx {β : Type} (act : AgentState → Nat → β → Eff) (st : AgentState) (r : Nat)
    (l : List β) : Nat :=
  (l.foldl (mkStep act) (st, [], r)).2.2

/-! Classifiers on commands, used to state per-unit claims. -/

/-- The uid of the entity a command acts on. -/
def Command.targetUid : Command → Nat
  | Command.build_mine u => u
  | Command.build_tank u _ => u
  | Command.build_ship u _ => u
  | Command.build_jet u _ => u
  | Command.set_heading u _ => u
  | Command.goto u _ _ => u
  | Command.convert_to_base u => u

/-- Whether a command is one of the four base constructions. -/
def Command.isBuild : Command → Bool
  | Command.build_mine _ => true
  | Command.build_tank _ _ => true
  | Command.build_ship _ _ => true
  | Command.build_jet _ _ => true
  | _ => false

def isBuildMineAt (u : Nat) : Command → Bool
  | Command.build_mine v => v = u
  | _ => false

def isBuildTankAt (u : Nat) : Command → Bool
  | Command.build_tank v _ => v = u
  | _ => false

def isBuildShipAt (u : Nat) : Command → Bool
  | Command.build_ship v _ => v = u
  | _ => false

def isBuildJetAt (u : Nat) : Command → Bool
  | Command.build_jet v _ => v = u
  | _ => false

def isSetHeadingFor (u : Nat) : Command → Bool
  | Command.set_heading v _ => v = u
  | _ => false

def isGotoFor (u : Nat) : Command → Bool
  | Command.goto v _ _ => v = u
  | _ => false

def isGotoCmd : Command → Bool
  | Command.goto _ _ _ => true
  | _ => false

def isConvertFor (u : Nat) : Command → Bool
  | Command.convert_to_base v => v = u
  | _ => false

/-- The accumulated position recording of a loop over units. -/
def posFold {β : Type} (key : β → Nat) (val : β → ℚ × ℚ) (l : List β)
    (m : Nat → Option (ℚ × ℚ)) : Nat → Option (ℚ × ℚ) :=
  l.foldl (fun acc x => upd acc (key x) (val x)) m

/-- The strategy loop body selected for a phase. -/
def stratAct : Phase → (Nat → ℚ) → AgentState → Nat → Base → Eff
  | Phase.early => earlyAct
  | Phase.mid => midAct
  | Phase.late => lateAct

/-- The commands issued by the jet loop. -/
def jetCmds (myinfo : TeamRecord) (target : Option (ℚ × ℚ)) : List Command :=
  match myinfo.jets, target with
  | some jets, some tp => jets.map (fun jet => Command.goto jet.uid tp.1 tp.2)
  | _, _ => []

/-- Filling the optional mobile-unit keys of a record with empty lists. -/
def TeamRecord.fillMobile (tr : TeamRecord) : TeamRecord :=
  { bases := tr.bases, tanks := some (tr.tanks.getD []),
    ships := some (tr.ships.getD []), jets := some (tr.jets.getD []) }

/-- Filling the optional mobile-unit keys of every record of a snapshot. -/
def fillInfo (info : List (String × TeamRecord)) : List (String × TeamRecord) :=
  info.map fun p => (p.1, p.2.fillMobile)

/-- One invocation's inputs, for stating properties of call sequences. -/
structure CallInput where
  t : ℚ
  dt : ℚ
  info : List (String × TeamRecord)
  rng : Nat → ℚ
  ridx : Nat

/-- Repeated invocation of run on one agent instance, threading the agent
state; the first uncaught exception stops the sequence. -/
def runSeq (team : String) (st : AgentState) : List CallInput → Except String AgentState
  | [] => Except.ok st
  | ci :: rest =>
    match run st team ci.t ci.dt ci.info ci.rng ci.ridx with
    | Except.error e => Except.error e
    | Except.ok out => runSeq team out.1 rest

theorem mkStep_eq {β : Type} (act : AgentState → Nat → β → Eff)
    (st : AgentState) (cmds : List Command) (r : Nat) (x : β) :
    mkStep act (st, cmds, r) x = ((act st r x).1, cmds ++ (act st r x).2.1, (act st r x).2.2) := by
  rcases hx : act st r x with ⟨a, d, b⟩
  simp [mkStep, hx]

/-- Looping from a nonempty command log only appends. -/
theorem foldl_mkStep_append {β : Type} (act : AgentState → Nat → β → Eff) :
    ∀ (l : List β) (st : AgentState) (cmds : List Command) (r : Nat) (st' : AgentState)
      (ds : List Command) (r' : Nat),
      l.foldl (mkStep act) (st, [], r) = (st', ds, r') →
      l.foldl (mkStep act) (st, cmds, r) = (st', cmds ++ ds, r') := by
  intro l
  induction l with
  | nil =>
    intro st cmds r st' ds r' hb
    simp only [List.foldl_nil] at hb ⊢
    simp only [Prod.mk.injEq] at hb
    obtain ⟨rfl, rfl, rfl⟩ := hb
    simp
  | cons x xs ih =>
    intro st cmds r st' ds r' hb
    simp only [List.foldl_cons, mkStep_eq] at hb ⊢
    rcases h2 : List.foldl (mkStep act)
        ((act st r x).1, ([] : List Command), (act st r x).2.2) xs with ⟨s2, d2, r2⟩
    have h3 := ih (act st r x).1 ((act st r x).2.1) (act st r x).2.2 s2 d2 r2 h2
    rw [List.nil_append] at hb
    rw [h3] at hb
    simp only [Prod.mk.injEq] at hb
    obtain ⟨rfl, rfl, rfl⟩ := hb
    have h4 := ih (act st r x).1 (cmds ++ (act st r x).2.1) (act st r x).2.2 s2 d2 r2 h2
    rw [h4]
    simp [List.append_assoc]

theorem foldl_mkStep_eq {β : Type} (act : AgentState → Nat → β → Eff)
    (l : List β) (st : AgentState) (cmds : List Command) (r : Nat) :
    l.foldl (mkStep act) (st, cmds, r) =
      (foldState act st r l, cmds ++ foldDelta act st r l, foldRidx act st r l) := by
  apply foldl_mkStep_append act l st cmds r
  rfl

theorem foldDelta_nil {β : Type} (act : AgentState → Nat → β → Eff)
    (st : AgentState) (r : Nat) : foldDelta act st r [] = [] := rfl

theorem foldState_nil {β : Type} (act : AgentState → Nat → β → Eff)
    (st : AgentState) (r : Nat) : foldState act st r [] = st := rfl

theorem foldDelta_cons {β : Type} (act : AgentState → Nat → β → Eff)
    (st : AgentState) (r : Nat) (x : β) (l : List β) :
    foldDelta act st r (x :: l) =
      (act st r x).2.1 ++ foldDelta act (act st r x).1 (act st r x).2.2 l := by
  simp only [foldDelta, List.foldl_cons, mkStep_eq, List.nil_append]
  rw [foldl_mkStep_eq]
  simp [foldDelta]

theorem foldState_cons {β : Type} (act : AgentState → Nat → β → Eff)
    (st : AgentState) (r : Nat) (x : β) (l : List β) :
    foldState act st r (x :: l) = foldState act (act st r x).1 (act st r x).2.2 l := by
  simp only [foldState, List.foldl_cons, mkStep_eq, List.nil_append]
  rw [foldl_mkStep_eq]
  simp [foldState]

theorem foldRidx_cons {β : Type} (act : AgentState → Nat → β → Eff)
    (st : AgentState) (r : Nat) (x : β) (l : List β) :
    foldRidx act st r (x :: l) = foldRidx act (act st r x).1 (act st r x).2.2 l := by
  simp only [foldRidx, List.foldl_cons, mkStep_eq, List.nil_append]
  rw [foldl_mkStep_eq]
  simp [foldRidx]

/-- Every command appended by a loop comes from the loop body on one of the
list elements. -/
theorem foldDelta_forall {β : Type} (act : AgentState → Nat → β → Eff)
    (P : Command → Prop)
    (hstep : ∀ st r x, ∀ c ∈ (act st r x).2.1, P c) :
    ∀ (l : List β) (st : AgentState) (r : Nat), ∀ c ∈ foldDelta act st r l, P c := by
  intro l
  induction l with
  | nil => intro st r c hc; simp [foldDelta_nil] at hc
  | cons x xs ih =>
    intro st r c hc
    rw [foldDelta_cons] at hc
    rcases List.mem_append.mp hc with hc | hc
    · exact hstep st r x c hc
    · exact ih _ _ c hc

/-- Membership form: every command appended by a loop is issued by its body
on a member of the list. -/
theorem foldDelta_mem {β : Type} (act : AgentState → Nat → β → Eff) :
    ∀ (l : List β) (st : AgentState) (r : Nat), ∀ c ∈ foldDelta act st r l,
      ∃ x ∈ l, ∃ st' r', c ∈ (act st' r' x).2.1 := by
  intro l
  induction l with
  | nil => intro st r c hc; simp [foldDelta_nil] at hc
  | cons x xs ih =>
    intro st r c hc
    rw [foldDelta_cons] at hc
    rcases List.mem_append.mp hc with hc | hc
    · exact ⟨x, List.mem_cons_self x xs, st, r, hc⟩
    · rcases ih _ _ c hc with ⟨y, hy, st', r', hmem⟩
      exact ⟨y, List.mem_cons_of_mem x hy, st', r', hmem⟩

/-! Facts about the sorted-list model: the head of the ascending sort is a
minimum of the key, and the last element is a maximum. -/

theorem pySorted_perm {α : Type} (key : α → ℚ) (l : List α) :
    List.Perm (pySorted key l) l :=
  List.perm_insertionSort _ l

theorem pySorted_mem {α : Type} (key : α → ℚ) {l : List α} {x : α} :
    x ∈ pySorted key l ↔ x ∈ l :=
  (pySorted_perm key l).mem_iff

theorem pySorted_sorted {α : Type} (key : α → ℚ) (l : List α) :
    (pySorted key l).Sorted (fun a b => key a ≤ key b) := by
  haveI : IsTotal α (fun a b => key a ≤ key b) := ⟨fun a b => le_total _ _⟩
  haveI : IsTrans α (fun a b => key a ≤ key b) := ⟨fun a b c hab hbc => le_trans hab hbc⟩
  exact List.sorted_insertionSort _ l

theorem pySorted_eq_nil_iff {α : Type} (key : α → ℚ) {l : List α} :
    pySorted key l = [] ↔ l = [] := by
  constructor
  · intro h
    have := (pySorted_perm key l).length_eq
    rw [h] at this
    exact List.eq_nil_of_length_eq_zero this.symm
  · intro h; subst h; rfl

theorem pySorted_head_min {α : Type} {key : α → ℚ} {l : List α} {b : α}
    (h : (pySorted key l).head? = some b) : b ∈ l ∧ ∀ x ∈ l, key b ≤ key x := by
  have hs := pySorted_sorted key l
  cases hp : pySorted key l with
  | nil => rw [hp] at h; simp at h
  | cons a t =>
    rw [hp] at h
    simp only [List.head?_cons, Option.some.injEq] at h
    subst h
    rw [hp] at hs
    constructor
    · exact (pySorted_mem key).mp (hp ▸ List.mem_cons_self _ _)
    · intro x hx
      have hx' : x ∈ pySorted key l := (pySorted_mem key).mpr hx
      rw [hp] at hx'
      rcases List.mem_cons.mp hx' with rfl | hx'
      · exact le_refl _
      · exact List.rel_of_sorted_cons hs x hx'

/-- In a list pairwise related by a reflexive relation, every element is
related to the last element. -/
theorem pairwise_rel_getLast {α : Type} {r : α → α → Prop} (hrefl : ∀ a, r a a) :
    ∀ (l : List α), l.Pairwise r → ∀ m, l.getLast? = some m → m ∈ l ∧ ∀ x ∈ l, r x m := by
  intro l
  induction l with
  | nil => intro _ m hm; simp at hm
  | cons a t ih =>
    intro hp m hm
    cases t with
    | nil =>
      simp only [List.getLast?_singleton, Option.some.injEq] at hm
      subst hm
      refine ⟨List.mem_singleton_self _, ?_⟩
      intro x hx
      rw [List.mem_singleton] at hx
      subst hx
      exact hrefl _
    | cons c t2 =>
      rw [List.getLast?_cons_cons] at hm
      have ih2 := ih (List.Pairwise.of_cons hp) m hm
      refine ⟨List.mem_cons_of_mem a ih2.1, ?_⟩
      intro x hx
      rcases List.mem_cons.mp hx with rfl | hx
      · exact (List.pairwise_cons.mp hp).1 m ih2.1
      · exact ih2.2 x hx

theorem pySorted_getLast_max {α : Type} {key : α → ℚ} {l : List α} {b : α}
    (h : (pySorted key l).getLast? = some b) : b ∈ l ∧ ∀ x ∈ l, key x ≤ key b := by
  have hs := pySorted_sorted key l
  have hmain := pairwise_rel_getLast (r := fun a c => key a ≤ key c)
    (fun a => le_refl _) (pySorted key l) hs b h
  exact ⟨(pySorted_mem key).mp hmain.1, fun x hx => hmain.2 x ((pySorted_mem key).mpr hx)⟩

theorem pySorted_getLast_isSome {α : Type} (key : α → ℚ) {l : List α} (h : l ≠ []) :
    ∃ b, (pySorted key l).getLast? = some b := by
  have hne : pySorted key l ≠ [] := fun hc => h ((pySorted_eq_nil_iff key).mp hc)
  cases hq : (pySorted key l).getLast? with
  | none => exact absurd (List.getLast?_eq_none_iff.mp hq) hne
  | some b => exact ⟨b, rfl⟩

/-! Facts about the counter registration. -/

theorem registerBase_prev (st : AgentState) (u : Nat) :
    (registerBase st u).previous_positions = st.previous_positions := by
  simp only [registerBase]
  repeat' split
  all_goals rfl

theorem registerBase_ntanks_self (st : AgentState) (u : Nat) :
    (registerBase st u).ntanks u = some ((st.ntanks u).getD 0) := by
  simp only [registerBase]
  cases hv : st.ntanks u with
  | some n => repeat' split
              all_goals simp_all [upd]
  | none => repeat' split
            all_goals simp_all [upd]

theorem registerBase_nships_self (st : AgentState) (u : Nat) :
    (registerBase st u).nships u = some ((st.nships u).getD 0) := by
  simp only [registerBase]
  cases hv : st.nships u with
  | some n => repeat' split
              all_goals simp_all [upd]
  | none => repeat' split
            all_goals simp_all [upd]

theorem registerBase_ntanks_other (st : AgentState) {u v : Nat} (h : v ≠ u) :
    (registerBase st u).ntanks v = st.ntanks v := by
  simp only [registerBase]
  repeat' split
  all_goals first | rfl | simp_all [upd]

theorem registerBase_nships_other (st : AgentState) {u v : Nat} (h : v ≠ u) :
    (registerBase st u).nships v = st.nships v := by
  simp only [registerBase]
  repeat' split
  all_goals first | rfl | simp_all [upd]

theorem upd_self {β : Type} (m : Nat → Option β) (k : Nat) (v : β) : upd m k v k = some v := by
  simp [upd]

theorem upd_ne {β : Type} (m : Nat → Option β) {k k' : Nat} (v : β) (h : k' ≠ k) :
    upd m k v k' = m k' := by
  simp [upd, h]

/-- A command whose target is not u matches none of the per-u classifiers. -/
theorem classifiers_false_of_ne {v : Nat} {c : Command} (h : c.targetUid ≠ v) :
    isBuildMineAt v c = false ∧ isBuildTankAt v c = false ∧ isBuildShipAt v c = false ∧
      isBuildJetAt v c = false ∧ isSetHeadingFor v c = false ∧ isGotoFor v c = false ∧
      isConvertFor v c = false := by
  cases c <;> simp_all [Command.targetUid, isBuildMineAt, isBuildTankAt, isBuildShipAt,
    isBuildJetAt, isSetHeadingFor, isGotoFor, isConvertFor]

/-- A build command matches none of the mobile-unit classifiers. -/
theorem unit_classifiers_false_of_isBuild {v : Nat} {c : Command} (h : c.isBuild = true) :
    isSetHeadingFor v c = false ∧ isGotoFor v c = false ∧ isGotoCmd c = false ∧
      isConvertFor v c = false := by
  cases c <;> simp_all [Command.isBuild, isSetHeadingFor, isGotoFor, isGotoCmd, isConvertFor]

/-- A non-build command matches none of the build classifiers. -/
theorem build_classifiers_false_of_not_isBuild {v : Nat} {c : Command} (h : c.isBuild = false) :
    isBuildMineAt v c = false ∧ isBuildTankAt v c = false ∧ isBuildShipAt v c = false ∧
      isBuildJetAt v c = false := by
  cases c <;> simp_all [Command.isBuild, isBuildMineAt, isBuildTankAt, isBuildShipAt,
    isBuildJetAt]

/-! Per-iteration facts about the three strategy loop bodies. -/

theorem earlyAct_prev (rng : Nat → ℚ) (st : AgentState) (r : Nat) (b : Base) :
    (earlyAct rng st r b).1.previous_positions = st.previous_positions := by
  simp only [earlyAct]
  repeat' split
  all_goals simp [registerBase_prev]

theorem midAct_prev (rng : Nat → ℚ) (st : AgentState) (r : Nat) (b : Base) :
    (midAct rng st r b).1.previous_positions = st.previous_positions := by
  simp only [midAct]
  repeat' split
  all_goals simp [registerBase_prev]

theorem lateAct_prev (rng : Nat → ℚ) (st : AgentState) (r : Nat) (b : Base) :
    (lateAct rng st r b).1.previous_positions = st.previous_positions := by
  simp only [lateAct]
  repeat' split
  all_goals simp [registerBase_prev]

theorem earlyAct_cmds_build (rng : Nat → ℚ) (st : AgentState) (r : Nat) (b : Base) :
    ∀ c ∈ (earlyAct rng st r b).2.1, c.isBuild = true ∧ c.targetUid = b.uid := by
  intro c hc
  simp only [earlyAct] at hc
  repeat' split at hc
  all_goals simp_all [Command.isBuild, Command.targetUid]

theorem midAct_cmds_build (rng : Nat → ℚ) (st : AgentState) (r : Nat) (b : Base) :
    ∀ c ∈ (midAct rng st r b).2.1, c.isBuild = true ∧ c.targetUid = b.uid := by
  intro c hc
  simp only [midAct] at hc
  repeat' split at hc
  all_goals simp_all [Command.isBuild, Command.targetUid]

theorem lateAct_cmds_build (rng : Nat → ℚ) (st : AgentState) (r : Nat) (b : Base) :
    ∀ c ∈ (lateAct rng st r b).2.1, c.isBuild = true ∧ c.targetUid = b.uid := by
  intro c hc
  simp only [lateAct] at hc
  repeat' split at hc
  all_goals simp_all [Command.isBuild, Command.targetUid]

theorem earlyAct_ntanks_other (rng : Nat → ℚ) (st : AgentState) (r : Nat) (b : Base)
    {v : Nat} (h : v ≠ b.uid) : (earlyAct rng st r b).1.ntanks v = st.ntanks v := by
  simp only [earlyAct]
  repeat' split
  all_goals simp [registerBase_ntanks_other st h, upd_ne _ _ h]

theorem earlyAct_nships_other (rng : Nat → ℚ) (st : AgentState) (r : Nat) (b : Base)
    {v : Nat} (h : v ≠ b.uid) : (earlyAct rng st r b).1.nships v = st.nships v := by
  simp only [earlyAct]
  repeat' split
  all_goals simp [registerBase_nships_other st h, upd_ne _ _ h]

theorem midAct_ntanks_other (rng : Nat → ℚ) (st : AgentState) (r : Nat) (b : Base)
    {v : Nat} (h : v ≠ b.uid) : (midAct rng st r b).1.ntanks v = st.ntanks v := by
  simp only [midAct]
  repeat' split
  all_goals simp [registerBase_ntanks_other st h, upd_ne _ _ h]

theorem midAct_nships_other (rng : Nat → ℚ) (st : AgentState) (r : Nat) (b : Base)
    {v : Nat} (h : v ≠ b.uid) : (midAct rng st r b).1.nships v = st.nships v := by
  simp only [midAct]
  repeat' split
  all_goals simp [registerBase_nships_other st h, upd_ne _ _ h]

theorem lateAct_ntanks_other (rng : Nat → ℚ) (st : AgentState) (r : Nat) (b : Base)
    {v : Nat} (h : v ≠ b.uid) : (lateAct rng st r b).1.ntanks v = st.ntanks v := by
  simp only [lateAct]
  repeat' split
  all_goals simp [registerBase_ntanks_other st h, upd_ne _ _ h]

theorem lateAct_nships_other (rng : Nat → ℚ) (st : AgentState) (r : Nat) (b : Base)
    {v : Nat} (h : v ≠ b.uid) : (lateAct rng st r b).1.nships v = st.nships v := by
  simp only [lateAct]
  repeat' split
  all_goals simp [registerBase_nships_other st h, upd_ne _ _ h]

theorem earlyAct_ntanks_self (rng : Nat → ℚ) (st : AgentState) (r : Nat) (b : Base) :
    (earlyAct rng st r b).1.ntanks b.uid =
      some ((st.ntanks b.uid).getD 0 +
        (earlyAct rng st r b).2.1.countP (isBuildTankAt b.uid)) := by
  simp only [earlyAct]
  repeat' split
  all_goals simp [registerBase_ntanks_self, upd_self, List.countP_cons, isBuildTankAt]

theorem earlyAct_nships_self (rng : Nat → ℚ) (st : AgentState) (r : Nat) (b : Base) :
    (earlyAct rng st r b).1.nships b.uid =
      some ((st.nships b.uid).getD 0 +
        (earlyAct rng st r b).2.1.countP (isBuildShipAt b.uid)) := by
  simp only [earlyAct]
  repeat' split
  all_goals simp [registerBase_nships_self, upd_self, List.countP_cons, isBuildShipAt,
    registerBase_nships_other]

theorem midAct_ntanks_self (rng : Nat → ℚ) (st : AgentState) (r : Nat) (b : Base) :
    (midAct rng st r b).1.ntanks b.uid =
      some ((st.ntanks b.uid).getD 0 +
        (midAct rng st r b).2.1.countP (isBuildTankAt b.uid)) := by
  simp only [midAct]
  repeat' split
  all_goals simp [registerBase_ntanks_self, upd_self, List.countP_cons, isBuildTankAt]

theorem midAct_nships_self (rng : Nat → ℚ) (st : AgentState) (r : Nat) (b : Base) :
    (midAct rng st r b).1.nships b.uid =
      some ((st.nships b.uid).getD 0 +
        (midAct rng st r b).2.1.countP (isBuildShipAt b.uid)) := by
  simp only [midAct]
  repeat' split
  all_goals simp [registerBase_nships_self, upd_self, List.countP_cons, isBuildShipAt]

theorem lateAct_ntanks_self (rng : Nat → ℚ) (st : AgentState) (r : Nat) (b : Base) :
    (lateAct rng st r b).1.ntanks b.uid =
      some ((st.ntanks b.uid).getD 0 +
        (lateAct rng st r b).2.1.countP (isBuildTankAt b.uid)) := by
  simp only [lateAct]
  repeat' split
  all_goals simp [registerBase_ntanks_self, upd_self, List.countP_cons, isBuildTankAt]

theorem lateAct_nships_self (rng : Nat → ℚ) (st : AgentState) (r : Nat) (b : Base) :
    (lateAct rng st r b).1.nships b.uid =
      some ((st.nships b.uid).getD 0 +
        (lateAct rng st r b).2.1.countP (isBuildShipAt b.uid)) := by
  simp only [lateAct]
  repeat' split
  all_goals simp [registerBase_nships_self, upd_self, List.countP_cons, isBuildShipAt]

/-! Per-iteration facts about the tank and ship loop bodies. -/

theorem tankAct_state (team : String) (info : List (String × TeamRecord)) (rng : Nat → ℚ)
    (st : AgentState) (r : Nat) (tk : Tank) :
    (tankAct team info rng st r tk).1 =
      { st with previous_positions := upd st.previous_positions tk.uid tk.position } := by
  simp only [tankAct]
  repeat' split
  all_goals rfl

theorem shipAct_state (rng : Nat → ℚ) (st : AgentState) (r : Nat) (sp : Ship) :
    (shipAct rng st r sp).1 =
      { st with previous_positions := upd st.previous_positions sp.uid sp.position } := by
  simp only [shipAct]
  repeat' split
  all_goals rfl

theorem tankAct_cmds_shape (team : String) (info : List (String × TeamRecord)) (rng : Nat → ℚ)
    (st : AgentState) (r : Nat) (tk : Tank) :
    ∀ c ∈ (tankAct team info rng st r tk).2.1,
      c = Command.set_heading tk.uid (rng r * 360) ∨ ∃ x y, c = Command.goto tk.uid x y := by
  intro c hc
  simp only [tankAct] at hc
  repeat' split at hc
  all_goals simp_all

theorem shipAct_cmds_shape (rng : Nat → ℚ) (st : AgentState) (r : Nat) (sp : Ship) :
    ∀ c ∈ (shipAct rng st r sp).2.1,
      c = Command.set_heading sp.uid (rng r * 360) ∨ c = Command.convert_to_base sp.uid := by
  intro c hc
  simp only [shipAct] at hc
  repeat' split at hc
  all_goals simp_all

/-- A stuck, unstopped, tracked tank gets one random heading. -/
theorem tankAct_heading (team : String) (info : List (String × TeamRecord)) (rng : Nat → ℚ)
    (st : AgentState) (r : Nat) (tk : Tank)
    (h1 : st.previous_positions tk.uid = some tk.position) (h2 : tk.stopped = false) :
    tankAct team info rng st r tk =
      ({ st with previous_positions := upd st.previous_positions tk.uid tk.position },
        [Command.set_heading tk.uid (rng r * 360)], r + 1) := by
  simp [tankAct, h1, h2]

/-- A moving, unstopped, tracked tank navigates to the head of the
distance-sorted enemy bases when its navigation does not fail. -/
theorem tankAct_goto (team : String) (info : List (String × TeamRecord)) (rng : Nat → ℚ)
    (st : AgentState) (r : Nat) (tk : Tank) (p : ℚ × ℚ) (nb : Base)
    (h1 : st.previous_positions tk.uid = some p) (h2 : tk.stopped = false)
    (h3 : tk.position ≠ p)
    (h4 : (pySorted (fun b => (b.x - tk.x) ^ 2 + (b.y - tk.y) ^ 2)
      (enemyBases team info)).head? = some nb)
    (h5 : tk.goto_fails = false) :
    tankAct team info rng st r tk =
      ({ st with previous_positions := upd st.previous_positions tk.uid tk.position },
        [Command.goto tk.uid nb.x nb.y], r) := by
  simp [tankAct, h1, h2, h3, h4, h5]

/-- A failing navigation is discarded: no command is issued, the position is
still recorded. -/
theorem tankAct_goto_failed (team : String) (info : List (String × TeamRecord)) (rng : Nat → ℚ)
    (st : AgentState) (r : Nat) (tk : Tank) (p : ℚ × ℚ) (nb : Base)
    (h1 : st.previous_positions tk.uid = some p) (h2 : tk.stopped = false)
    (h3 : tk.position ≠ p)
    (h4 : (pySorted (fun b => (b.x - tk.x) ^ 2 + (b.y - tk.y) ^ 2)
      (enemyBases team info)).head? = some nb)
    (h5 : tk.goto_fails = true) :
    tankAct team info rng st r tk =
      ({ st with previous_positions := upd st.previous_positions tk.uid tk.position },
        [], r) := by
  simp [tankAct, h1, h2, h3, h4, h5]

/-- A stuck tracked ship far from its owner converts to a base. -/
theorem shipAct_convert (rng : Nat → ℚ) (st : AgentState) (r : Nat) (sp : Ship)
    (h1 : st.previous_positions sp.uid = some sp.position)
    (h2 : sp.get_distance sp.owner_x sp.owner_y > 20) :
    shipAct rng st r sp =
      ({ st with previous_positions := upd st.previous_positions sp.uid sp.position },
        [Command.convert_to_base sp.uid], r) := by
  simp [shipAct, h1, h2]

/-- A stuck tracked ship close to its owner gets one random heading. -/
theorem shipAct_heading (rng : Nat → ℚ) (st : AgentState) (r : Nat) (sp : Ship)
    (h1 : st.previous_positions sp.uid = some sp.position)
    (h2 : ¬ sp.get_distance sp.owner_x sp.owner_y > 20) :
    shipAct rng st r sp =
      ({ st with previous_positions := upd st.previous_positions sp.uid sp.position },
        [Command.set_heading sp.uid (rng r * 360)], r + 1) := by
  simp [shipAct, h1, h2]

/-- A moving tracked ship issues nothing, only records its position. -/
theorem shipAct_moved (rng : Nat → ℚ) (st : AgentState) (r : Nat) (sp : Ship) (p : ℚ × ℚ)
    (h1 : st.previous_positions sp.uid = some p) (h2 : sp.position ≠ p) :
    shipAct rng st r sp =
      ({ st with previous_positions := upd st.previous_positions sp.uid sp.position },
        [], r) := by
  simp [shipAct, h1, h2]

/-! Fold-level lemmas, generic in the loop body. -/

theorem foldState_prev_of_acts {β : Type} (act : AgentState → Nat → β → Eff)
    (hprev : ∀ st r x, (act st r x).1.previous_positions = st.previous_positions) :
    ∀ (l : List β) (st : AgentState) (r : Nat),
      (foldState act st r l).previous_positions = st.previous_positions := by
  intro l
  induction l with
  | nil => intro st r; rw [foldState_nil]
  | cons x xs ih =>
    intro st r
    rw [foldState_cons, ih, hprev]

theorem foldState_counters_of_acts {β : Type} (act : AgentState → Nat → β → Eff)
    (key : β → Nat)
    (hother : ∀ st r x v, v ≠ key x →
      (act st r x).1.ntanks v = st.ntanks v ∧ (act st r x).1.nships v = st.nships v) :
    ∀ (l : List β) (st : AgentState) (r : Nat) (u : Nat), u ∉ l.map key →
      (foldState act st r l).ntanks u = st.ntanks u ∧
        (foldState act st r l).nships u = st.nships u := by
  intro l
  induction l with
  | nil => intro st r u _; rw [foldState_nil]; exact ⟨rfl, rfl⟩
  | cons x xs ih =>
    intro st r u hu
    simp only [List.map_cons, List.mem_cons, not_or] at hu
    rw [foldState_cons]
    have hx := hother st r x u hu.1
    have hxs := ih (act st r x).1 (act st r x).2.2 u (by simpa using hu.2)
    exact ⟨hxs.1.trans hx.1, hxs.2.trans hx.2⟩

theorem foldDelta_countP_zero {β : Type} (act : AgentState → Nat → β → Eff)
    (key : β → Nat)
    (htgt : ∀ st r x, ∀ c ∈ (act st r x).2.1, c.targetUid = key x)
    (l : List β) (st : AgentState) (r : Nat) (u : Nat) (p : Command → Bool)
    (hp : ∀ c : Command, c.targetUid ≠ u → p c = false)
    (hu : u ∉ l.map key) :
    (foldDelta act st r l).countP p = 0 := by
  rw [List.countP_eq_zero]
  intro c hc
  rcases foldDelta_mem act l st r c hc with ⟨x, hx, st', r', hmem⟩
  have h1 := htgt st' r' x c hmem
  have h2 : c.targetUid ≠ u := by
    rw [h1]
    intro hcon
    exact hu (hcon ▸ List.mem_map_of_mem key hx)
  simp [hp c h2]

theorem foldState_ntanks_of_acts {β : Type} (act : AgentState → Nat → β → Eff)
    (key : β → Nat)
    (hother : ∀ st r x v, v ≠ key x →
      (act st r x).1.ntanks v = st.ntanks v ∧ (act st r x).1.nships v = st.nships v)
    (hself : ∀ st r x, (act st r x).1.ntanks (key x) =
      some ((st.ntanks (key x)).getD 0 + (act st r x).2.1.countP (isBuildTankAt (key x))))
    (htgt : ∀ st r x, ∀ c ∈ (act st r x).2.1, c.targetUid = key x)
    (hlen : ∀ st r x, (act st r x).2.1.length ≤ 1) :
    ∀ (l : List β) (st : AgentState) (r : Nat) (u : Nat), (l.map key).Nodup →
      u ∈ l.map key →
      (foldState act st r l).ntanks u =
          some ((st.ntanks u).getD 0 + (foldDelta act st r l).countP (isBuildTankAt u)) ∧
        (foldDelta act st r l).countP (isBuildTankAt u) ≤ 1 := by
  intro l
  induction l with
  | nil => intro st r u _ hu; simp at hu
  | cons x xs ih =>
    intro st r u hnd hu
    simp only [List.map_cons, List.nodup_cons] at hnd
    rw [foldState_cons, foldDelta_cons, List.countP_append]
    simp only [List.map_cons] at hu
    rcases List.mem_cons.mp hu with rfl | hu2
    · have hzero : (foldDelta act (act st r x).1 (act st r x).2.2 xs).countP
          (isBuildTankAt (key x)) = 0 :=
        foldDelta_countP_zero act key htgt xs (act st r x).1 (act st r x).2.2 (key x) _
          (fun c hc => ((classifiers_false_of_ne hc).2.1)) hnd.1
      have hst := foldState_counters_of_acts act key hother xs (act st r x).1
        (act st r x).2.2 (key x) hnd.1
      rw [hzero, hst.1, hself st r x]
      constructor
      · rfl
      · have h1 := List.countP_le_length (l := (act st r x).2.1) (p := isBuildTankAt (key x))
        have h2 := hlen st r x
        omega
    · have hne : u ≠ key x := by
        intro hcon
        exact hnd.1 (hcon ▸ hu2)
      have hzero : ((act st r x).2.1.countP (isBuildTankAt u)) = 0 := by
        rw [List.countP_eq_zero]
        intro c hc
        have h1 := htgt st r x c hc
        have h2 : c.targetUid ≠ u := by rw [h1]; exact fun hcon => hne hcon.symm
        simp [(classifiers_false_of_ne h2).2.1]
      have hrec := ih (act st r x).1 (act st r x).2.2 u hnd.2 hu2
      rw [(hother st r x u hne).1] at hrec
      rw [hzero]
      refine ⟨?_, ?_⟩
      · rw [hrec.1]
        simp
      · have := hrec.2
        omega

theorem foldState_nships_of_acts {β : Type} (act : AgentState → Nat → β → Eff)
    (key : β → Nat)
    (hother : ∀ st r x v, v ≠ key x →
      (act st r x).1.ntanks v = st.ntanks v ∧ (act st r x).1.nships v = st.nships v)
    (hself : ∀ st r x, (act st r x).1.nships (key x) =
      some ((st.nships (key x)).getD 0 + (act st r x).2.1.countP (isBuildShipAt (key x))))
    (htgt : ∀ st r x, ∀ c ∈ (act st r x).2.1, c.targetUid = key x)
    (hlen : ∀ st r x, (act st r x).2.1.length ≤ 1) :
    ∀ (l : List β) (st : AgentState) (r : Nat) (u : Nat), (l.map key).Nodup →
      u ∈ l.map key →
      (foldState act st r l).nships u =
          some ((st.nships u).getD 0 + (foldDelta act st r l).countP (isBuildShipAt u)) ∧
        (foldDelta act st r l).countP (isBuildShipAt u) ≤ 1 := by
  intro l
  induction l with
  | nil => intro st r u _ hu; simp at hu
  | cons x xs ih =>
    intro st r u hnd hu
    simp only [List.map_cons, List.nodup_cons] at hnd
    rw [foldState_cons, foldDelta_cons, List.countP_append]
    simp only [List.map_cons] at hu
    rcases List.mem_cons.mp hu with rfl | hu2
    · have hzero : (foldDelta act (act st r x).1 (act st r x).2.2 xs).countP
          (isBuildShipAt (key x)) = 0 :=
        foldDelta_countP_zero act key htgt xs (act st r x).1 (act st r x).2.2 (key x) _
          (fun c hc => ((classifiers_false_of_ne hc).2.2.1)) hnd.1
      have hst := foldState_counters_of_acts act key hother xs (act st r x).1
        (act st r x).2.2 (key x) hnd.1
      rw [hzero, hst.2, hself st r x]
      constructor
      · rfl
      · have h1 := List.countP_le_length (l := (act st r x).2.1) (p := isBuildShipAt (key x))
        have h2 := hlen st r x
        omega
    · have hne : u ≠ key x := by
        intro hcon
        exact hnd.1 (hcon ▸ hu2)
      have hzero : ((act st r x).2.1.countP (isBuildShipAt u)) = 0 := by
        rw [List.countP_eq_zero]
        intro c hc
        have h1 := htgt st r x c hc
        have h2 : c.targetUid ≠ u := by rw [h1]; exact fun hcon => hne hcon.symm
        simp [(classifiers_false_of_ne h2).2.2.1]
      have hrec := ih (act st r x).1 (act st r x).2.2 u hnd.2 hu2
      rw [(hother st r x u hne).2] at hrec
      rw [hzero]
      refine ⟨?_, ?_⟩
      · rw [hrec.1]
        simp
      · have := hrec.2
        omega

/-- Counters never decrease across one loop, duplicates or not. -/
theorem foldState_counters_mono {β : Type} (act : AgentState → Nat → β → Eff)
    (key : β → Nat)
    (hother : ∀ st r x v, v ≠ key x →
      (act st r x).1.ntanks v = st.ntanks v ∧ (act st r x).1.nships v = st.nships v)
    (hselft : ∀ st r x, (act st r x).1.ntanks (key x) =
      some ((st.ntanks (key x)).getD 0 + (act st r x).2.1.countP (isBuildTankAt (key x))))
    (hselfs : ∀ st r x, (act st r x).1.nships (key x) =
      some ((st.nships (key x)).getD 0 + (act st r x).2.1.countP (isBuildShipAt (key x)))) :
    ∀ (l : List β) (st : AgentState) (r : Nat) (u : Nat),
      (∀ n, st.ntanks u = some n → ∃ m, (foldState act st r l).ntanks u = some m ∧ n ≤ m) ∧
      (∀ n, st.nships u = some n → ∃ m, (foldState act st r l).nships u = some m ∧ n ≤ m) := by
  intro l
  induction l with
  | nil => intro st r u; rw [foldState_nil]; exact ⟨fun n h => ⟨n, h, le_refl n⟩,
      fun n h => ⟨n, h, le_refl n⟩⟩
  | cons x xs ih =>
    intro st r u
    rw [foldState_cons]
    rcases ih (act st r x).1 (act st r x).2.2 u with ⟨iht, ihs⟩
    constructor
    · intro n hn
      by_cases hc : u = key x
      · subst hc
        have := hselft st r x
        rw [hn] at this
        rcases iht _ this with ⟨m, hm, hle⟩
        exact ⟨m, hm, by simp at hle; omega⟩
      · have := (hother st r x u hc).1
        rw [hn] at this
        exact iht n this
    · intro n hn
      by_cases hc : u = key x
      · subst hc
        have := hselfs st r x
        rw [hn] at this
        rcases ihs _ this with ⟨m, hm, hle⟩
        exact ⟨m, hm, by simp at hle; omega⟩
      · have := (hother st r x u hc).2
        rw [hn] at this
        exact ihs n this

theorem earlyAct_len (rng : Nat → ℚ) (st : AgentState) (r : Nat) (b : Base) :
    (earlyAct rng st r b).2.1.length ≤ 1 := by
  simp only [earlyAct]
  repeat' split
  all_goals simp

theorem midAct_len (rng : Nat → ℚ) (st : AgentState) (r : Nat) (b : Base) :
    (midAct rng st r b).2.1.length ≤ 1 := by
  simp only [midAct]
  repeat' split
  all_goals simp

theorem lateAct_len (rng : Nat → ℚ) (st : AgentState) (r : Nat) (b : Base) :
    (lateAct rng st r b).2.1.length ≤ 1 := by
  simp only [lateAct]
  repeat' split
  all_goals simp

/-! The previous-position dictionary after the tank and ship loops. -/

theorem posFold_nil {β : Type} (key : β → Nat) (val : β → ℚ × ℚ)
    (m : Nat → Option (ℚ × ℚ)) : posFold key val [] m = m := rfl

theorem posFold_cons {β : Type} (key : β → Nat) (val : β → ℚ × ℚ) (x : β) (l : List β)
    (m : Nat → Option (ℚ × ℚ)) :
    posFold key val (x :: l) m = posFold key val l (upd m (key x) (val x)) := rfl

theorem posFold_not_mem {β : Type} (key : β → Nat) (val : β → ℚ × ℚ) :
    ∀ (l : List β) (m : Nat → Option (ℚ × ℚ)) (u : Nat), u ∉ l.map key →
      posFold key val l m u = m u := by
  intro l
  induction l with
  | nil => intro m u _; rfl
  | cons x xs ih =>
    intro m u hu
    simp only [List.map_cons, List.mem_cons, not_or] at hu
    rw [posFold_cons, ih _ _ (by simpa using hu.2), upd_ne _ _ hu.1]

theorem posFold_isSome {β : Type} (key : β → Nat) (val : β → ℚ × ℚ) :
    ∀ (l : List β) (m : Nat → Option (ℚ × ℚ)) (u : Nat),
      (posFold key val l m u).isSome = true ↔ (m u).isSome = true ∨ u ∈ l.map key := by
  intro l
  induction l with
  | nil => intro m u; simp [posFold_nil]
  | cons x xs ih =>
    intro m u
    rw [posFold_cons, ih]
    by_cases hc : u = key x
    · subst hc
      simp [upd_self]
    · rw [upd_ne _ _ hc]
      simp only [List.map_cons, List.mem_cons]
      constructor
      · rintro (h | h)
        · exact Or.inl h
        · exact Or.inr (Or.inr h)
      · rintro (h | h | h)
        · exact Or.inl h
        · exact absurd h hc
        · exact Or.inr h

theorem posFold_mem_nodup {β : Type} (key : β → Nat) (val : β → ℚ × ℚ) :
    ∀ (l : List β) (m : Nat → Option (ℚ × ℚ)) (x : β), (l.map key).Nodup → x ∈ l →
      posFold key val l m (key x) = some (val x) := by
  intro l
  induction l with
  | nil => intro m x _ hx; simp at hx
  | cons y ys ih =>
    intro m x hnd hx
    simp only [List.map_cons, List.nodup_cons] at hnd
    rcases List.mem_cons.mp hx with rfl | hx2
    · rw [posFold_cons, posFold_not_mem _ _ _ _ _ hnd.1, upd_self]
    · rw [posFold_cons]
      exact ih _ x hnd.2 hx2

theorem tanks_foldState (team : String) (info : List (String × TeamRecord)) (rng : Nat → ℚ) :
    ∀ (tanks : List Tank) (st : AgentState) (r : Nat),
      foldState (tankAct team info rng) st r tanks =
        { st with previous_positions :=
            posFold Tank.uid Tank.position tanks st.previous_positions } := by
  intro tanks
  induction tanks with
  | nil => intro st r; rw [foldState_nil, posFold_nil]
  | cons tk rest ih =>
    intro st r
    rw [foldState_cons, ih, tankAct_state, posFold_cons]

theorem ships_foldState (rng : Nat → ℚ) :
    ∀ (ships : List Ship) (st : AgentState) (r : Nat),
      foldState (shipAct rng) st r ships =
        { st with previous_positions :=
            posFold Ship.uid Ship.position ships st.previous_positions } := by
  intro ships
  induction ships with
  | nil => intro st r; rw [foldState_nil, posFold_nil]
  | cons sp rest ih =>
    intro st r
    rw [foldState_cons, ih, shipAct_state, posFold_cons]

/-! Command counting over the tank and ship loops. -/

theorem tankAct_targetUid (team : String) (info : List (String × TeamRecord)) (rng : Nat → ℚ)
    (st : AgentState) (r : Nat) (tk : Tank) :
    ∀ c ∈ (tankAct team info rng st r tk).2.1, c.targetUid = tk.uid := by
  intro c hc
  rcases tankAct_cmds_shape team info rng st r tk c hc with rfl | ⟨x, y, rfl⟩ <;> rfl

theorem shipAct_targetUid (rng : Nat → ℚ) (st : AgentState) (r : Nat) (sp : Ship) :
    ∀ c ∈ (shipAct rng st r sp).2.1, c.targetUid = sp.uid := by
  intro c hc
  rcases shipAct_cmds_shape rng st r sp c hc with rfl | rfl <;> rfl

theorem tankAct_not_build (team : String) (info : List (String × TeamRecord)) (rng : Nat → ℚ)
    (st : AgentState) (r : Nat) (tk : Tank) :
    ∀ c ∈ (tankAct team info rng st r tk).2.1, c.isBuild = false ∧
      (∀ v, isConvertFor v c = false) := by
  intro c hc
  rcases tankAct_cmds_shape team info rng st r tk c hc with rfl | ⟨x, y, rfl⟩ <;>
    exact ⟨rfl, fun v => rfl⟩

theorem shipAct_not_build (rng : Nat → ℚ) (st : AgentState) (r : Nat) (sp : Ship) :
    ∀ c ∈ (shipAct rng st r sp).2.1, c.isBuild = false ∧ isGotoCmd c = false := by
  intro c hc
  rcases shipAct_cmds_shape rng st r sp c hc with rfl | rfl <;> exact ⟨rfl, rfl⟩

/-- A tracked, unstopped, stuck tank gets exactly one heading and no
navigation over the whole tank loop, provided tank uids are not repeated. -/
theorem tanksDelta_heading_count (team : String) (info : List (String × TeamRecord))
    (rng : Nat → ℚ) :
    ∀ (tanks : List Tank) (st : AgentState) (r : Nat) (tk : Tank),
      (tanks.map Tank.uid).Nodup → tk ∈ tanks →
      st.previous_positions tk.uid = some tk.position → tk.stopped = false →
      (foldDelta (tankAct team info rng) st r tanks).countP (isSetHeadingFor tk.uid) = 1 ∧
        (foldDelta (tankAct team info rng) st r tanks).countP (isGotoFor tk.uid) = 0 := by
  intro tanks
  induction tanks with
  | nil => intro st r tk _ htk; simp at htk
  | cons t0 rest ih =>
    intro st r tk hnd htk hprev hstop
    simp only [List.map_cons, List.nodup_cons] at hnd
    rw [foldDelta_cons, List.countP_append, List.countP_append]
    rcases List.mem_cons.mp htk with rfl | htk2
    · rw [tankAct_heading team info rng st r tk hprev hstop]
      have hz1 : (foldDelta (tankAct team info rng)
          { st with previous_positions := upd st.previous_positions tk.uid tk.position }
          (r + 1) rest).countP (isSetHeadingFor tk.uid) = 0 :=
        foldDelta_countP_zero _ Tank.uid (tankAct_targetUid team info rng) rest _ _ _ _
          (fun c hc => (classifiers_false_of_ne hc).2.2.2.2.1) hnd.1
      have hz2 : (foldDelta (tankAct team info rng)
          { st with previous_positions := upd st.previous_positions tk.uid tk.position }
          (r + 1) rest).countP (isGotoFor tk.uid) = 0 :=
        foldDelta_countP_zero _ Tank.uid (tankAct_targetUid team info rng) rest _ _ _ _
          (fun c hc => (classifiers_false_of_ne hc).2.2.2.2.2.1) hnd.1
      rw [hz1, hz2]
      simp [List.countP_cons, isSetHeadingFor, isGotoFor]
    · have hne : t0.uid ≠ tk.uid := by
        intro hcon
        exact hnd.1 (hcon ▸ List.mem_map_of_mem Tank.uid htk2)
      have hz1 : ((tankAct team info rng st r t0).2.1.countP (isSetHeadingFor tk.uid)) = 0 := by
        rw [List.countP_eq_zero]
        intro c hc
        have h1 := tankAct_targetUid team info rng st r t0 c hc
        simp [(classifiers_false_of_ne (h1 ▸ hne)).2.2.2.2.1]
      have hz2 : ((tankAct team info rng st r t0).2.1.countP (isGotoFor tk.uid)) = 0 := by
        rw [List.countP_eq_zero]
        intro c hc
        have h1 := tankAct_targetUid team info rng st r t0 c hc
        simp [(classifiers_false_of_ne (h1 ▸ hne)).2.2.2.2.2.1]
      have hprev2 : ((tankAct team info rng st r t0).1).previous_positions tk.uid =
          some tk.position := by
        rw [tankAct_state]
        show upd st.previous_positions t0.uid t0.position tk.uid = some tk.position
        rw [upd_ne st.previous_positions t0.position (Ne.symm hne)]
        exact hprev
      have hrec := ih (tankAct team info rng st r t0).1 (tankAct team info rng st r t0).2.2
        tk hnd.2 htk2 hprev2 hstop
      rw [hz1, hz2, hrec.1, hrec.2]
      omega

/-- A tracked, unstopped, moved tank with a reachable nearest base issues a
navigation to it during the tank loop. -/
theorem tanksDelta_goto_mem (team : String) (info : List (String × TeamRecord))
    (rng : Nat → ℚ) :
    ∀ (tanks : List Tank) (st : AgentState) (r : Nat) (tk : Tank) (p : ℚ × ℚ) (nb : Base),
      (tanks.map Tank.uid).Nodup → tk ∈ tanks →
      st.previous_positions tk.uid = some p → tk.stopped = false → tk.position ≠ p →
      (pySorted (fun b => (b.x - tk.x) ^ 2 + (b.y - tk.y) ^ 2)
        (enemyBases team info)).head? = some nb →
      tk.goto_fails = false →
      Command.goto tk.uid nb.x nb.y ∈ foldDelta (tankAct team info rng) st r tanks := by
  intro tanks
  induction tanks with
  | nil => intro st r tk p nb _ htk; simp at htk
  | cons t0 rest ih =>
    intro st r tk p nb hnd htk hprev hstop hmoved hnear hfail
    simp only [List.map_cons, List.nodup_cons] at hnd
    rw [foldDelta_cons]
    rcases List.mem_cons.mp htk with rfl | htk2
    · rw [tankAct_goto team info rng st r tk p nb hprev hstop hmoved hnear hfail]
      simp
    · have hne : t0.uid ≠ tk.uid := by
        intro hcon
        exact hnd.1 (hcon ▸ List.mem_map_of_mem Tank.uid htk2)
      have hprev2 : ((tankAct team info rng st r t0).1).previous_positions tk.uid = some p := by
        rw [tankAct_state]
        show upd st.previous_positions t0.uid t0.position tk.uid = some p
        rw [upd_ne st.previous_positions t0.position (Ne.symm hne)]
        exact hprev
      exact List.mem_append_right _
        (ih (tankAct team info rng st r t0).1 (tankAct team info rng st r t0).2.2
          tk p nb hnd.2 htk2 hprev2 hstop hmoved hnear hfail)

/-- Every heading issued by the tank loop is 360 times a stream value. -/
theorem tanksDelta_heading_range (team : String) (info : List (String × TeamRecord))
    (rng : Nat → ℚ) (hrng : ∀ i, 0 ≤ rng i ∧ rng i < 1) (tanks : List Tank)
    (st : AgentState) (r : Nat) :
    ∀ c ∈ foldDelta (tankAct team info rng) st r tanks,
      ∀ u v, c = Command.set_heading u v → 0 ≤ v ∧ v < 360 := by
  refine foldDelta_forall _ _ ?_ tanks st r
  intro st' r' tk c hc u v hv
  rcases tankAct_cmds_shape team info rng st' r' tk c hc with rfl | ⟨x, y, rfl⟩
  · cases hv
    refine ⟨mul_nonneg (hrng r').1 (by norm_num), ?_⟩
    have h1 : rng r' * 360 < 1 * 360 := mul_lt_mul_of_pos_right (hrng r').2 (by norm_num)
    simpa using h1
  · exact absurd hv (by simp)

/-- Every heading issued by the ship loop is 360 times a stream value. -/
theorem shipsDelta_heading_range (rng : Nat → ℚ) (hrng : ∀ i, 0 ≤ rng i ∧ rng i < 1)
    (ships : List Ship) (st : AgentState) (r : Nat) :
    ∀ c ∈ foldDelta (shipAct rng) st r ships,
      ∀ u v, c = Command.set_heading u v → 0 ≤ v ∧ v < 360 := by
  refine foldDelta_forall _ _ ?_ ships st r
  intro st' r' sp c hc u v hv
  rcases shipAct_cmds_shape rng st' r' sp c hc with rfl | rfl
  · cases hv
    refine ⟨mul_nonneg (hrng r').1 (by norm_num), ?_⟩
    have h1 : rng r' * 360 < 1 * 360 := mul_lt_mul_of_pos_right (hrng r').2 (by norm_num)
    simpa using h1
  · exact absurd hv (by simp)

/-- A tracked stuck ship is converted exactly once (far) or gets exactly one
heading (near), over the whole ship loop, provided ship uids are not
repeated. -/
theorem shipsDelta_stuck_count (rng : Nat → ℚ) :
    ∀ (ships : List Ship) (st : AgentState) (r : Nat) (sp : Ship),
      (ships.map Ship.uid).Nodup → sp ∈ ships →
      st.previous_positions sp.uid = some sp.position →
      (sp.get_distance sp.owner_x sp.owner_y > 20 →
        (foldDelta (shipAct rng) st r ships).countP (isConvertFor sp.uid) = 1 ∧
          (foldDelta (shipAct rng) st r ships).countP (isSetHeadingFor sp.uid) = 0) ∧
      (¬ sp.get_distance sp.owner_x sp.owner_y > 20 →
        (foldDelta (shipAct rng) st r ships).countP (isSetHeadingFor sp.uid) = 1 ∧
          (foldDelta (shipAct rng) st r ships).countP (isConvertFor sp.uid) = 0) := by
  intro ships
  induction ships with
  | nil => intro st r sp _ hsp; simp at hsp
  | cons s0 rest ih =>
    intro st r sp hnd hsp hprev
    simp only [List.map_cons, List.nodup_cons] at hnd
    rw [foldDelta_cons]
    rcases List.mem_cons.mp hsp with rfl | hsp2
    · have hz1 : ∀ st2 r2, (foldDelta (shipAct rng) st2 r2 rest).countP
          (isSetHeadingFor sp.uid) = 0 := fun st2 r2 =>
        foldDelta_countP_zero _ Ship.uid (shipAct_targetUid rng) rest st2 r2 _ _
          (fun c hc => (classifiers_false_of_ne hc).2.2.2.2.1) hnd.1
      have hz2 : ∀ st2 r2, (foldDelta (shipAct rng) st2 r2 rest).countP
          (isConvertFor sp.uid) = 0 := fun st2 r2 =>
        foldDelta_countP_zero _ Ship.uid (shipAct_targetUid rng) rest st2 r2 _ _
          (fun c hc => (classifiers_false_of_ne hc).2.2.2.2.2.2) hnd.1
      constructor
      · intro hfar
        rw [shipAct_convert rng st r sp hprev hfar]
        simp only [List.countP_append, hz1, hz2]
        simp [List.countP_cons, isConvertFor, isSetHeadingFor]
      · intro hnear
        rw [shipAct_heading rng st r sp hprev hnear]
        simp only [List.countP_append, hz1, hz2]
        simp [List.countP_cons, isConvertFor, isSetHeadingFor]
    · have hne : s0.uid ≠ sp.uid := by
        intro hcon
        exact hnd.1 (hcon ▸ List.mem_map_of_mem Ship.uid hsp2)
      have hz1 : ((shipAct rng st r s0).2.1.countP (isSetHeadingFor sp.uid)) = 0 := by
        rw [List.countP_eq_zero]
        intro c hc
        have h1 := shipAct_targetUid rng st r s0 c hc
        simp [(classifiers_false_of_ne (h1 ▸ hne)).2.2.2.2.1]
      have hz2 : ((shipAct rng st r s0).2.1.countP (isConvertFor sp.uid)) = 0 := by
        rw [List.countP_eq_zero]
        intro c hc
        have h1 := shipAct_targetUid rng st r s0 c hc
        simp [(classifiers_false_of_ne (h1 ▸ hne)).2.2.2.2.2.2]
      have hprev2 : ((shipAct rng st r s0).1).previous_positions sp.uid =
          some sp.position := by
        rw [shipAct_state]
        show upd st.previous_positions s0.uid s0.position sp.uid = some sp.position
        rw [upd_ne st.previous_positions s0.position (Ne.symm hne)]
        exact hprev
      have hrec := ih (shipAct rng st r s0).1 (shipAct rng st r s0).2.2 sp hnd.2 hsp2 hprev2
      constructor
      · intro hfar
        have h2 := hrec.1 hfar
        rw [List.countP_append, List.countP_append, hz1, hz2, h2.1, h2.2]
        omega
      · intro hnear
        have h2 := hrec.2 hnear
        rw [List.countP_append, List.countP_append, hz1, hz2, h2.1, h2.2]
        omega

/-! Decomposition of a completed run into its four command segments. -/

theorem stratAct_prev (ph : Phase) (rng : Nat → ℚ) (st : AgentState) (r : Nat) (b : Base) :
    (stratAct ph rng st r b).1.previous_positions = st.previous_positions := by
  cases ph
  · exact earlyAct_prev rng st r b
  · exact midAct_prev rng st r b
  · exact lateAct_prev rng st r b

theorem stratAct_cmds_build (ph : Phase) (rng : Nat → ℚ) (st : AgentState) (r : Nat)
    (b : Base) : ∀ c ∈ (stratAct ph rng st r b).2.1, c.isBuild = true ∧ c.targetUid = b.uid := by
  cases ph
  · exact earlyAct_cmds_build rng st r b
  · exact midAct_cmds_build rng st r b
  · exact lateAct_cmds_build rng st r b

theorem stratAct_counters_other (ph : Phase) (rng : Nat → ℚ) (st : AgentState) (r : Nat)
    (b : Base) (v : Nat) (h : v ≠ b.uid) :
    (stratAct ph rng st r b).1.ntanks v = st.ntanks v ∧
      (stratAct ph rng st r b).1.nships v = st.nships v := by
  cases ph
  · exact ⟨earlyAct_ntanks_other rng st r b h, earlyAct_nships_other rng st r b h⟩
  · exact ⟨midAct_ntanks_other rng st r b h, midAct_nships_other rng st r b h⟩
  · exact ⟨lateAct_ntanks_other rng st r b h, lateAct_nships_other rng st r b h⟩

theorem stratAct_ntanks_self (ph : Phase) (rng : Nat → ℚ) (st : AgentState) (r : Nat)
    (b : Base) : (stratAct ph rng st r b).1.ntanks b.uid =
      some ((st.ntanks b.uid).getD 0 +
        (stratAct ph rng st r b).2.1.countP (isBuildTankAt b.uid)) := by
  cases ph
  · exact earlyAct_ntanks_self rng st r b
  · exact midAct_ntanks_self rng st r b
  · exact lateAct_ntanks_self rng st r b

theorem stratAct_nships_self (ph : Phase) (rng : Nat → ℚ) (st : AgentState) (r : Nat)
    (b : Base) : (stratAct ph rng st r b).1.nships b.uid =
      some ((st.nships b.uid).getD 0 +
        (stratAct ph rng st r b).2.1.countP (isBuildShipAt b.uid)) := by
  cases ph
  · exact earlyAct_nships_self rng st r b
  · exact midAct_nships_self rng st r b
  · exact lateAct_nships_self rng st r b

theorem stratAct_len (ph : Phase) (rng : Nat → ℚ) (st : AgentState) (r : Nat) (b : Base) :
    (stratAct ph rng st r b).2.1.length ≤ 1 := by
  cases ph
  · exact earlyAct_len rng st r b
  · exact midAct_len rng st r b
  · exact lateAct_len rng st r b

theorem strategyFor_eq (ph : Phase) (st : AgentState) (team : String)
    (info : List (String × TeamRecord)) (rng : Nat → ℚ) (ridx : Nat) :
    strategyFor ph st team info rng ridx =
      match info.lookup team with
      | none => Except.error "KeyError: team"
      | some myinfo =>
        match myinfo.bases with
        | none => Except.error "KeyError: bases"
        | some bases => Except.ok (bases.foldl (mkStep (stratAct ph rng)) (st, [], ridx)) := by
  cases ph <;> rfl

theorem tanksPhase_eq (team : String) (info : List (String × TeamRecord)) (rng : Nat → ℚ)
    (myinfo : TeamRecord) (acc : Acc) :
    tanksPhase team info rng myinfo acc =
      (myinfo.tanks.getD []).foldl (mkStep (tankAct team info rng)) acc := by
  simp only [tanksPhase]
  cases h : myinfo.tanks <;> simp [h]

theorem shipsPhase_eq (rng : Nat → ℚ) (myinfo : TeamRecord) (acc : Acc) :
    shipsPhase rng myinfo acc =
      (myinfo.ships.getD []).foldl (mkStep (shipAct rng)) acc := by
  simp only [shipsPhase]
  cases h : myinfo.ships <;> simp [h]

theorem jetsPhase_eq (myinfo : TeamRecord) (target : Option (ℚ × ℚ)) (st : AgentState)
    (cmds : List Command) (r : Nat) :
    jetsPhase myinfo target (st, cmds, r) = (st, cmds ++ jetCmds myinfo target, r) := by
  cases hj : myinfo.jets <;> cases ht : target <;> simp [jetsPhase, jetCmds, hj, ht]

/-- A completed run decomposes into the strategy, tank, ship and jet
segments, threaded in program order. -/
theorem run_ok_decomp (st : AgentState) (team : String) (t : ℚ) (dt : ℚ)
    (info : List (String × TeamRecord)) (rng : Nat → ℚ) (ridx : Nat)
    (st' : AgentState) (cmds : List Command) (r' : Nat)
    (h : run st team t dt info rng ridx = Except.ok (st', cmds, r')) :
    ∃ myinfo bases,
      info.lookup team = some myinfo ∧
      myinfo.bases = some bases ∧
      (∃ d, deadTarget team info = Except.ok d) ∧
      (let S1 := foldState (stratAct (phaseOf t) rng) st ridx bases
       let C1 := foldDelta (stratAct (phaseOf t) rng) st ridx bases
       let R1 := foldRidx (stratAct (phaseOf t) rng) st ridx bases
       let S2 := foldState (tankAct team info rng) S1 R1 (myinfo.tanks.getD [])
       let C2 := foldDelta (tankAct team info rng) S1 R1 (myinfo.tanks.getD [])
       let R2 := foldRidx (tankAct team info rng) S1 R1 (myinfo.tanks.getD [])
       let S3 := foldState (shipAct rng) S2 R2 (myinfo.ships.getD [])
       let C3 := foldDelta (shipAct rng) S2 R2 (myinfo.ships.getD [])
       let R3 := foldRidx (shipAct rng) S2 R2 (myinfo.ships.getD [])
       st' = S3 ∧ r' = R3 ∧
         cmds = C1 ++ (C2 ++ (C3 ++ jetCmds myinfo (powerTarget team info)))) := by
  rw [run, strategyFor_eq] at h
  cases hlk : info.lookup team with
  | none => rw [hlk] at h; simp at h
  | some myinfo =>
    rw [hlk] at h
    dsimp only at h
    cases hb : myinfo.bases with
    | none => rw [hb] at h; simp at h
    | some bases =>
      rw [hb] at h
      dsimp only at h
      cases hd : deadTarget team info with
      | error e => rw [hd] at h; simp at h
      | ok d =>
        rw [hd] at h
        dsimp only at h
        simp only [Except.ok.injEq] at h
        refine ⟨myinfo, bases, rfl, hb, ⟨d, rfl⟩, ?_⟩
        rw [foldl_mkStep_eq, List.nil_append, tanksPhase_eq, foldl_mkStep_eq,
          shipsPhase_eq, foldl_mkStep_eq, jetsPhase_eq] at h
        simp only [Prod.mk.injEq] at h
        obtain ⟨h1, h2, h3⟩ := h
        exact ⟨h1.symm, h3.symm, by rw [← h2]; simp [List.append_assoc]⟩

/-! Completion of a run, and defaulting of missing mobile-unit keys. -/

theorem deadTarget_fold_ok (team : String) :
    ∀ (l : List (String × TeamRecord)) (init : Option (ℚ × ℚ)),
      (∀ p ∈ l, p.1 ≠ team → p.2.bases ≠ some []) →
      ∃ d, (l.foldlM (deadTargetStep team) init) = Except.ok d := by
  intro l
  induction l with
  | nil => intro init _; exact ⟨init, rfl⟩
  | cons p ps ih =>
    intro init hp
    have hstep : ∃ v, deadTargetStep team init p = Except.ok v := by
      unfold deadTargetStep
      split
      · rename_i hne
        cases hbs : p.2.bases with
        | none => exact ⟨init, rfl⟩
        | some bs =>
          cases bs with
          | nil => exact absurd hbs (hp p (List.mem_cons_self _ _) hne)
          | cons b bs2 => exact ⟨some (b.x, b.y), rfl⟩
      · exact ⟨init, rfl⟩
    rcases hstep with ⟨v, hv⟩
    rw [List.foldlM_cons, hv]
    have hrest := ih v (fun q hq hqne => hp q (List.mem_cons_of_mem _ hq) hqne)
    rcases hrest with ⟨d, hd⟩
    exact ⟨d, hd⟩

theorem deadTarget_ok (team : String) (info : List (String × TeamRecord))
    (h : ∀ p ∈ info, p.1 ≠ team → p.2.bases ≠ some []) :
    ∃ d, deadTarget team info = Except.ok d := by
  unfold deadTarget
  split
  · exact deadTarget_fold_ok team info none h
  · exact ⟨none, rfl⟩

/-- A run completes whenever the team record is present with its "bases" key
and no enemy "bases" key holds an empty list. -/
theorem run_completes (st : AgentState) (team : String) (t : ℚ) (dt : ℚ)
    (info : List (String × TeamRecord)) (rng : Nat → ℚ) (ridx : Nat)
    (myinfo : TeamRecord) (bases : List Base)
    (hlk : info.lookup team = some myinfo) (hb : myinfo.bases = some bases)
    (hdead : ∀ p ∈ info, p.1 ≠ team → p.2.bases ≠ some []) :
    ∃ out, run st team t dt info rng ridx = Except.ok out := by
  rcases deadTarget_ok team info hdead with ⟨d, hd⟩
  rw [run, strategyFor_eq, hlk]
  dsimp only
  rw [hb]
  dsimp only
  rw [hd]
  exact ⟨_, rfl⟩

theorem lookup_fillInfo (team : String) :
    ∀ (info : List (String × TeamRecord)),
      (fillInfo info).lookup team = (info.lookup team).map TeamRecord.fillMobile := by
  intro info
  induction info with
  | nil => rfl
  | cons p ps ih =>
    rcases p with ⟨name, tr⟩
    show ((name, tr.fillMobile) :: fillInfo ps).lookup team =
      (((name, tr) :: ps).lookup team).map TeamRecord.fillMobile
    rw [List.lookup_cons, List.lookup_cons]
    cases hbe : (team == name) with
    | true => rfl
    | false => exact ih

theorem filter_fillInfo (team : String) (info : List (String × TeamRecord)) :
    (fillInfo info).filter (fun p => p.1 ≠ team) =
      fillInfo (info.filter (fun p => p.1 ≠ team)) := by
  simp only [fillInfo, List.filter_map]
  congr 1

theorem enemyBases_fillInfo (team : String) (info : List (String × TeamRecord)) :
    enemyBases team (fillInfo info) = enemyBases team info := by
  simp only [enemyBases, filter_fillInfo]
  congr 1
  simp [fillInfo, TeamRecord.fillMobile, Function.comp]

theorem deadTarget_fillInfo (team : String) (info : List (String × TeamRecord)) :
    deadTarget team (fillInfo info) = deadTarget team info := by
  simp only [deadTarget, fillInfo, List.length_map]
  split
  · have : ∀ (l : List (String × TeamRecord)) (init : Option (ℚ × ℚ)),
        (l.map fun p => (p.1, p.2.fillMobile)).foldlM (deadTargetStep team) init =
          l.foldlM (deadTargetStep team) init := by
      intro l
      induction l with
      | nil => intro init; rfl
      | cons p ps ih =>
        intro init
        rw [List.map_cons, List.foldlM_cons, List.foldlM_cons]
        have hstep : deadTargetStep team init (p.1, p.2.fillMobile) =
            deadTargetStep team init p := by
          simp [deadTargetStep, TeamRecord.fillMobile]
        rw [hstep]
        cases deadTargetStep team init p with
        | error e => rfl
        | ok v => simpa using ih v
    exact this info none
  · rfl

theorem determine_power_fillMobile (tr : TeamRecord) :
    determine_power tr.fillMobile = determine_power tr := by
  simp [determine_power, TeamRecord.fillMobile]

theorem powerTarget_fillInfo (team : String) (info : List (String × TeamRecord)) :
    powerTarget team (fillInfo info) = powerTarget team info := by
  simp only [powerTarget, fillInfo, List.length_map]
  split
  · have h1 : ((info.map fun p => (p.1, p.2.fillMobile)).filter
        (fun p => p.1 ≠ team)).map Prod.snd =
        ((info.filter (fun p => p.1 ≠ team)).map Prod.snd).map TeamRecord.fillMobile := by
      rw [show (info.map fun p => (p.1, p.2.fillMobile)) = fillInfo info from rfl,
        filter_fillInfo]
      simp [fillInfo, Function.comp]
    rw [h1]
    have h2 : pySorted determine_power
        (((info.filter (fun p => p.1 ≠ team)).map Prod.snd).map TeamRecord.fillMobile) =
        (pySorted determine_power ((info.filter (fun p => p.1 ≠ team)).map Prod.snd)).map
          TeamRecord.fillMobile := by
      unfold pySorted
      refine (List.map_insertionSort (fun a b => determine_power a ≤ determine_power b)
        (fun a b => determine_power a ≤ determine_power b) TeamRecord.fillMobile _ ?_).symm
      intro a _ b _
      simp [determine_power_fillMobile]
    rw [h2, List.getLast?_map]
    cases hlast : (pySorted determine_power
        ((info.filter (fun p => p.1 ≠ team)).map Prod.snd)).getLast? with
    | none => rfl
    | some se => rfl
  · rfl

theorem tankAct_fillInfo (team : String) (info : List (String × TeamRecord)) (rng : Nat → ℚ) :
    tankAct team (fillInfo info) rng = tankAct team info rng := by
  funext st r tk
  simp only [tankAct, enemyBases_fillInfo]

theorem jetCmds_fillMobile (tr : TeamRecord) (target : Option (ℚ × ℚ)) :
    jetCmds tr.fillMobile target = jetCmds tr target := by
  cases hj : tr.jets <;> cases ht : target <;>
    simp [jetCmds, TeamRecord.fillMobile, hj, ht]

/-- Missing "tanks", "ships" and "jets" keys anywhere in the snapshot are
observationally the same as empty lists: filling them does not change what
run does. -/
theorem run_fillInfo (st : AgentState) (team : String) (t : ℚ) (dt : ℚ)
    (info : List (String × TeamRecord)) (rng : Nat → ℚ) (ridx : Nat) :
    run st team t dt (fillInfo info) rng ridx = run st team t dt info rng ridx := by
  rw [run, run, strategyFor_eq, strategyFor_eq, lookup_fillInfo, deadTarget_fillInfo]
  cases hlk : info.lookup team with
  | none => rfl
  | some myinfo =>
    simp only [Option.map_some']
    rw [show myinfo.fillMobile.bases = myinfo.bases from rfl]
    cases hb : myinfo.bases with
    | none => rfl
    | some bases =>
      dsimp only
      cases hd : deadTarget team info with
      | error e => rfl
      | ok d =>
        dsimp only
        congr 1
        rw [tanksPhase_eq, tanksPhase_eq, shipsPhase_eq, shipsPhase_eq,
          show myinfo.fillMobile.tanks.getD [] = myinfo.tanks.getD [] from rfl,
          show myinfo.fillMobile.ships.getD [] = myinfo.ships.getD [] from rfl,
          tankAct_fillInfo, powerTarget_fillInfo]
        rcases hacc : (myinfo.ships.getD []).foldl (mkStep (shipAct rng))
            ((myinfo.tanks.getD []).foldl (mkStep (tankAct team info rng))
              (bases.foldl (mkStep (stratAct (phaseOf t) rng)) (st, [], ridx)))
          with ⟨A, C, R⟩
        rw [jetsPhase_eq, jetsPhase_eq, jetCmds_fillMobile]

/-! Localizing per-base command counts to the base's own loop iteration. -/

/-- In a loop over bases with distinct uids, the commands matching a
classifier tied to one base's uid all come from that base's iteration, which
runs with that uid's counters unchanged from loop entry. -/
theorem foldDelta_countP_split {β : Type} (act : AgentState → Nat → β → Eff)
    (key : β → Nat)
    (htgt : ∀ st r x, ∀ c ∈ (act st r x).2.1, c.targetUid = key x)
    (hother : ∀ st r x v, v ≠ key x →
      (act st r x).1.ntanks v = st.ntanks v ∧ (act st r x).1.nships v = st.nships v) :
    ∀ (l : List β) (st : AgentState) (r : Nat) (x : β), (l.map key).Nodup → x ∈ l →
      ∃ st1 r1, st1.ntanks (key x) = st.ntanks (key x) ∧
        st1.nships (key x) = st.nships (key x) ∧
        ∀ p : Command → Bool, (∀ c : Command, c.targetUid ≠ key x → p c = false) →
          (foldDelta act st r l).countP p = ((act st1 r1 x).2.1).countP p := by
  intro l
  induction l with
  | nil => intro st r x _ hx; simp at hx
  | cons y ys ih =>
    intro st r x hnd hx
    simp only [List.map_cons, List.nodup_cons] at hnd
    rcases List.mem_cons.mp hx with rfl | hx2
    · refine ⟨st, r, rfl, rfl, ?_⟩
      intro p hp
      rw [foldDelta_cons, List.countP_append,
        foldDelta_countP_zero act key htgt ys _ _ _ p hp hnd.1]
      omega
    · have hne : key y ≠ key x := by
        intro hcon
        exact hnd.1 (hcon ▸ List.mem_map_of_mem key hx2)
      rcases ih (act st r y).1 (act st r y).2.2 x hnd.2 hx2 with ⟨st1, r1, ht1, hs1, hcount⟩
      refine ⟨st1, r1, ?_, ?_, ?_⟩
      · rw [ht1, (hother st r y (key x) (Ne.symm hne)).1]
      · rw [hs1, (hother st r y (key x) (Ne.symm hne)).2]
      · intro p hp
        rw [foldDelta_cons, List.countP_append, hcount p hp]
        have hz : ((act st r y).2.1.countP p) = 0 := by
          rw [List.countP_eq_zero]
          intro c hc
          have h1 := htgt st r y c hc
          simp [hp c (h1 ▸ hne)]
        omega

/-! The tank, ship and jet segments contain no build commands, and related
segment exclusions. -/

theorem tanksDelta_no_builds (team : String) (info : List (String × TeamRecord))
    (rng : Nat → ℚ) (tanks : List Tank) (st : AgentState) (r : Nat)
    (p : Command → Bool) (hp : ∀ c : Command, c.isBuild = false → isConvertFor c.targetUid c = false → p c = false) :
    (foldDelta (tankAct team info rng) st r tanks).countP p = 0 := by
  rw [List.countP_eq_zero]
  intro c hc
  rcases foldDelta_mem _ tanks st r c hc with ⟨tk, _, st', r', hmem⟩
  have h1 := tankAct_not_build team info rng st' r' tk c hmem
  simp [hp c h1.1 (h1.2 c.targetUid)]

theorem shipsDelta_no_builds (rng : Nat → ℚ) (ships : List Ship) (st : AgentState) (r : Nat)
    (p : Command → Bool) (hp : ∀ c : Command, c.isBuild = false → isGotoCmd c = false → p c = false) :
    (foldDelta (shipAct rng) st r ships).countP p = 0 := by
  rw [List.countP_eq_zero]
  intro c hc
  rcases foldDelta_mem _ ships st r c hc with ⟨sp, _, st', r', hmem⟩
  have h1 := shipAct_not_build rng st' r' sp c hmem
  simp [hp c h1.1 h1.2]

theorem jetCmds_all_goto (myinfo : TeamRecord) (target : Option (ℚ × ℚ)) :
    ∀ c ∈ jetCmds myinfo target, isGotoCmd c = true := by
  intro c hc
  unfold jetCmds at hc
  split at hc
  · rcases List.mem_map.mp hc with ⟨j, _, rfl⟩
    rfl
  · simp at hc

theorem jetCmds_countP_zero (myinfo : TeamRecord) (target : Option (ℚ × ℚ))
    (p : Command → Bool) (hp : ∀ c : Command, isGotoCmd c = true → p c = false) :
    (jetCmds myinfo target).countP p = 0 := by
  rw [List.countP_eq_zero]
  intro c hc
  simp [hp c (jetCmds_all_goto myinfo target c hc)]

theorem stratDelta_all_builds (ph : Phase) (rng : Nat → ℚ) (bases : List Base)
    (st : AgentState) (r : Nat) :
    ∀ c ∈ foldDelta (stratAct ph rng) st r bases, c.isBuild = true := by
  intro c hc
  rcases foldDelta_mem _ bases st r c hc with ⟨b, _, st', r', hmem⟩
  exact (stratAct_cmds_build ph rng st' r' b c hmem).1

theorem stratDelta_countP_zero (ph : Phase) (rng : Nat → ℚ) (bases : List Base)
    (st : AgentState) (r : Nat) (p : Command → Bool)
    (hp : ∀ c : Command, c.isBuild = true → p c = false) :
    (foldDelta (stratAct ph rng) st r bases).countP p = 0 := by
  rw [List.countP_eq_zero]
  intro c hc
  simp [hp c (stratDelta_all_builds ph rng bases st r c hc)]

/-! Branch behavior of the strategy loop bodies, stated on the commands. -/

theorem isBuildMineAt_iff (u : Nat) (c : Command) :
    isBuildMineAt u c = true ↔ c = Command.build_mine u := by
  cases c <;> simp [isBuildMineAt]

theorem isBuildTankAt_iff (u : Nat) (c : Command) :
    isBuildTankAt u c = true ↔ ∃ h, c = Command.build_tank u h := by
  cases c <;> simp [isBuildTankAt]

theorem isBuildShipAt_iff (u : Nat) (c : Command) :
    isBuildShipAt u c = true ↔ ∃ h, c = Command.build_ship u h := by
  cases c <;> simp [isBuildShipAt]

theorem isBuildJetAt_iff (u : Nat) (c : Command) :
    isBuildJetAt u c = true ↔ ∃ h, c = Command.build_jet u h := by
  cases c <;> simp [isBuildJetAt]

theorem isSetHeadingFor_iff (u : Nat) (c : Command) :
    isSetHeadingFor u c = true ↔ ∃ v, c = Command.set_heading u v := by
  cases c <;> simp [isSetHeadingFor]

theorem isConvertFor_iff (u : Nat) (c : Command) :
    isConvertFor u c = true ↔ c = Command.convert_to_base u := by
  cases c <;> simp [isConvertFor]

theorem earlyAct_delta_mine (rng : Nat → ℚ) (st : AgentState) (r : Nat) (b : Base)
    (hm : b.mines < 3) (ha : b.crystal > b.cost "mine") :
    (earlyAct rng st r b).2.1 = [Command.build_mine b.uid] := by
  simp [earlyAct, hm, ha]

theorem earlyAct_delta_mine_blocked (rng : Nat → ℚ) (st : AgentState) (r : Nat) (b : Base)
    (hm : b.mines < 3) (ha : ¬ b.crystal > b.cost "mine") :
    (earlyAct rng st r b).2.1 = [] := by
  simp [earlyAct, hm, ha]

theorem midAct_delta_mine (rng : Nat → ℚ) (st : AgentState) (r : Nat) (b : Base)
    (hm : b.mines < 2) (ha : b.crystal > b.cost "mine") :
    (midAct rng st r b).2.1 = [Command.build_mine b.uid] := by
  simp [midAct, hm, ha]

/-! C7 -/

/-- C7: phase selection is a pure function of the elapsed time alone:
below 180 the early build order runs, from 180 up to below 360 the mid one,
from 360 on the late one; the boundary values 180 and 360 select mid and
late while 179.9 and 359.9 select early and mid; and run depends on the
elapsed time only through the selected phase. -/
theorem c7_phase_selection :
    (∀ t : ℚ, t < 180 → phaseOf t = Phase.early) ∧
    (∀ t : ℚ, 180 ≤ t → t < 360 → phaseOf t = Phase.mid) ∧
    (∀ t : ℚ, 360 ≤ t → phaseOf t = Phase.late) ∧
    phaseOf 180 = Phase.mid ∧ phaseOf 360 = Phase.late ∧
    phaseOf (1799 / 10) = Phase.early ∧ phaseOf (3599 / 10) = Phase.mid ∧
    (∀ t1 t2 : ℚ, phaseOf t1 = phaseOf t2 →
      ∀ (st : AgentState) (team : String) (dt : ℚ) (info : List (String × TeamRecord))
        (rng : Nat → ℚ) (ridx : Nat),
        run st team t1 dt info rng ridx = run st team t2 dt info rng ridx) := by
  refine ⟨?_, ?_, ?_, ?_, ?_, ?_, ?_, ?_⟩
  · intro t ht
    simp [phaseOf, ht]
  · intro t h1 h2
    simp [phaseOf, not_lt.mpr h1, h2]
  · intro t h
    have h1 : ¬ t < 180 := not_lt.mpr (le_trans (by norm_num) h)
    simp [phaseOf, h1, not_lt.mpr h]
  · norm_num [phaseOf]
  · norm_num [phaseOf]
  · norm_num [phaseOf]
  · norm_num [phaseOf]
  · intro t1 t2 hph st team dt info rng ridx
    rw [run, run, hph]

/-- Witness for C7 at the boundary inputs. -/
theorem c7_phase_selection_witness :
    phaseOf (1799 / 10) = Phase.early ∧ phaseOf 180 = Phase.mid ∧
      phaseOf (3599 / 10) = Phase.mid ∧ phaseOf 360 = Phase.late ∧
      run initState "w" 179 0 [] (fun _ => 0) 0 = run initState "w" 100 0 [] (fun _ => 0) 0 :=
  ⟨c7_phase_selection.2.2.2.2.2.1, c7_phase_selection.2.2.2.1,
    c7_phase_selection.2.2.2.2.2.2.1, c7_phase_selection.2.2.2.2.1,
    c7_phase_selection.2.2.2.2.2.2.2 179 100
      (by norm_num [phaseOf]) initState "w" 0 [] (fun _ => 0) 0⟩

/-! C1 -/

/-- C1 (amended): run completes whenever the agent's record has its "bases"
key and every enemy "bases" key present holds a nonempty list; the "tanks",
"ships" and "jets" keys may be missing anywhere and a missing enemy "bases"
key is tolerated, all treated as empty lists.  (As stated the claim is
false: a missing "bases" key on the agent's own record raises KeyError, and
an enemy "bases" key holding an empty list raises IndexError in the dead
first-enemy-base computation.) -/
theorem c1_missing_keys_defaulted (st : AgentState) (team : String) (t dt : ℚ)
    (info : List (String × TeamRecord)) (rng : Nat → ℚ) (ridx : Nat)
    (myinfo : TeamRecord) (bases : List Base)
    (hlk : info.lookup team = some myinfo) (hb : myinfo.bases = some bases)
    (hdead : ∀ p ∈ info, p.1 ≠ team → p.2.bases ≠ some []) :
    (∃ out, run st team t dt info rng ridx = Except.ok out) ∧
      run st team t dt (fillInfo info) rng ridx = run st team t dt info rng ridx :=
  ⟨run_completes st team t dt info rng ridx myinfo bases hlk hb hdead,
    run_fillInfo st team t dt info rng ridx⟩

/-- A snapshot whose only record misses every optional key except "bases". -/
def c1WitnessInfo : List (String × TeamRecord) :=
  [("The Wise Riders", { bases := some [], tanks := none, ships := none, jets := none })]

/-- Witness for C1 (amended) on a concrete snapshot with missing keys. -/
theorem c1_missing_keys_defaulted_witness :
    (∃ out, run initState "The Wise Riders" 0 0 c1WitnessInfo (fun _ => 0) 0 =
      Except.ok out) ∧
      run initState "The Wise Riders" 0 0 (fillInfo c1WitnessInfo) (fun _ => 0) 0 =
        run initState "The Wise Riders" 0 0 c1WitnessInfo (fun _ => 0) 0 :=
  c1_missing_keys_defaulted initState "The Wise Riders" 0 0 c1WitnessInfo (fun _ => 0) 0
    _ [] rfl rfl
    (by
      intro p hp hne
      rcases List.mem_cons.mp hp with rfl | h2
      · exact absurd rfl hne
      · simp at h2)

/-- A snapshot whose only record (the agent's own) misses the "bases" key. -/
def c1CounterInfo : List (String × TeamRecord) :=
  [("The Wise Riders", { bases := none, tanks := none, ships := none, jets := none })]

/-- C1 counterexample: with the agent's own "bases" key missing, run raises
KeyError instead of treating it as an empty list. -/
theorem c1_counterexample :
    run initState "The Wise Riders" 0 0 c1CounterInfo (fun _ => 0) 0 =
      Except.error "KeyError: bases" := rfl

theorem isBuild_false_of_isGotoCmd {c : Command} (h : isGotoCmd c = true) :
    c.isBuild = false := by
  cases c <;> simp_all [isGotoCmd, Command.isBuild]

/-! C2 -/

/-- C2 (amended): a base with no mines and crystal above the mine cost
builds a mine, and nothing else, in the early and mid phases; the late phase
is excluded, since strategy_lategame only ever builds jets. -/
theorem c2_mine_first_early_mid (st : AgentState) (team : String) (t dt : ℚ)
    (info : List (String × TeamRecord)) (rng : Nat → ℚ) (ridx : Nat)
    (st' : AgentState) (cmds : List Command) (r' : Nat)
    (myinfo : TeamRecord) (bases : List Base) (b : Base)
    (hrun : run st team t dt info rng ridx = Except.ok (st', cmds, r'))
    (hph : phaseOf t = Phase.early ∨ phaseOf t = Phase.mid)
    (hlk : info.lookup team = some myinfo)
    (hbs : myinfo.bases = some bases)
    (hnd : (bases.map Base.uid).Nodup)
    (hmem : b ∈ bases)
    (hmines : b.mines = 0)
    (haff : b.crystal > b.cost "mine") :
    Command.build_mine b.uid ∈ cmds ∧
      cmds.countP (fun c => isBuildTankAt b.uid c || isBuildShipAt b.uid c ||
        isBuildJetAt b.uid c) = 0 := by
  rcases run_ok_decomp st team t dt info rng ridx st' cmds r' hrun with
    ⟨myinfo2, bases2, hlk2, hbs2, _, hmain⟩
  rw [hlk] at hlk2
  obtain rfl : myinfo = myinfo2 := by injection hlk2
  rw [hbs] at hbs2
  obtain rfl : bases = bases2 := by injection hbs2
  obtain ⟨hst, hr, hcmds⟩ := hmain
  rcases foldDelta_countP_split (stratAct (phaseOf t) rng) Base.uid
      (fun s2 r2 x c hc => (stratAct_cmds_build (phaseOf t) rng s2 r2 x c hc).2)
      (fun s2 r2 x v hv => stratAct_counters_other (phaseOf t) rng s2 r2 x v hv)
      bases st ridx b hnd hmem with ⟨st1, r1, ht1, hs1, hcount⟩
  have hdelta : (stratAct (phaseOf t) rng st1 r1 b).2.1 = [Command.build_mine b.uid] := by
    rcases hph with hph | hph
    · rw [hph]
      exact earlyAct_delta_mine rng st1 r1 b (by omega) haff
    · rw [hph]
      exact midAct_delta_mine rng st1 r1 b (by omega) haff
  have hmine1 : (foldDelta (stratAct (phaseOf t) rng) st ridx bases).countP
      (isBuildMineAt b.uid) = 1 := by
    rw [hcount (isBuildMineAt b.uid) (fun c hc => (classifiers_false_of_ne hc).1), hdelta]
    simp [List.countP_cons, isBuildMineAt]
  have hothers0 : (foldDelta (stratAct (phaseOf t) rng) st ridx bases).countP
      (fun c => isBuildTankAt b.uid c || isBuildShipAt b.uid c || isBuildJetAt b.uid c) = 0 := by
    rw [hcount _ (fun c hc => by
      rcases classifiers_false_of_ne hc with ⟨_, h2, h3, h4, _⟩
      simp [h2, h3, h4]), hdelta]
    simp [List.countP_cons, isBuildTankAt, isBuildShipAt, isBuildJetAt]
  have hp_mine_t : ∀ c : Command, c.isBuild = false → isConvertFor c.targetUid c = false →
      isBuildMineAt b.uid c = false :=
    fun c h1 _ => (build_classifiers_false_of_not_isBuild h1).1
  have hp_mine_s : ∀ c : Command, c.isBuild = false → isGotoCmd c = false →
      isBuildMineAt b.uid c = false :=
    fun c h1 _ => (build_classifiers_false_of_not_isBuild h1).1
  have hp_mine_j : ∀ c : Command, isGotoCmd c = true → isBuildMineAt b.uid c = false :=
    fun c h1 => (build_classifiers_false_of_not_isBuild (isBuild_false_of_isGotoCmd h1)).1
  have hp2_t : ∀ c : Command, c.isBuild = false → isConvertFor c.targetUid c = false →
      (isBuildTankAt b.uid c || isBuildShipAt b.uid c || isBuildJetAt b.uid c) = false := by
    intro c h1 _
    rcases build_classifiers_false_of_not_isBuild (v := b.uid) h1 with ⟨_, h2, h3, h4⟩
    simp [h2, h3, h4]
  have hp2_s : ∀ c : Command, c.isBuild = false → isGotoCmd c = false →
      (isBuildTankAt b.uid c || isBuildShipAt b.uid c || isBuildJetAt b.uid c) = false := by
    intro c h1 _
    rcases build_classifiers_false_of_not_isBuild (v := b.uid) h1 with ⟨_, h2, h3, h4⟩
    simp [h2, h3, h4]
  have hp2_j : ∀ c : Command, isGotoCmd c = true →
      (isBuildTankAt b.uid c || isBuildShipAt b.uid c || isBuildJetAt b.uid c) = false := by
    intro c h1
    rcases build_classifiers_false_of_not_isBuild (v := b.uid)
      (isBuild_false_of_isGotoCmd h1) with ⟨_, h2, h3, h4⟩
    simp [h2, h3, h4]
  constructor
  · have hcnt : cmds.countP (isBuildMineAt b.uid) = 1 := by
      rw [hcmds]
      simp only [List.countP_append]
      rw [hmine1, tanksDelta_no_builds team info rng _ _ _ _ hp_mine_t,
        shipsDelta_no_builds rng _ _ _ _ hp_mine_s,
        jetCmds_countP_zero _ _ _ hp_mine_j]
    have hpos : 0 < cmds.countP (isBuildMineAt b.uid) := by omega
    rcases List.countP_pos_iff.mp hpos with ⟨c, hcmem, hcp⟩
    rwa [(isBuildMineAt_iff b.uid c).mp hcp] at hcmem
  · rw [hcmds]
    simp only [List.countP_append]
    rw [hothers0, tanksDelta_no_builds team info rng _ _ _ _ hp2_t,
      shipsDelta_no_builds rng _ _ _ _ hp2_s,
      jetCmds_countP_zero _ _ _ hp2_j]

/-- The witness base for C2: no mines, plenty of crystal. -/
def c2WitnessBase : Base :=
  { uid := 1, x := 0, y := 0, crystal := 100, mines := 0, cost := fun _ => 50 }

/-- The witness snapshot for C2. -/
def c2WitnessInfo : List (String × TeamRecord) :=
  [("Me", { bases := some [c2WitnessBase], tanks := none, ships := none, jets := none })]

/-- Witness for C2 (amended): in the early phase the witness base builds
exactly its mine. -/
theorem c2_mine_first_early_mid_witness :
    Command.build_mine 1 ∈ [Command.build_mine 1] ∧
      ([Command.build_mine 1] : List Command).countP (fun c => isBuildTankAt 1 c ||
        isBuildShipAt 1 c || isBuildJetAt 1 c) = 0 :=
  c2_mine_first_early_mid initState "Me" 0 0 c2WitnessInfo (fun _ => 0) 0
    _ [Command.build_mine 1] _ _ [c2WitnessBase] c2WitnessBase rfl
    (Or.inl rfl) rfl rfl (by decide) (List.mem_singleton_self c2WitnessBase) rfl (by decide)

/-- The counterexample base for C2's late phase: no mines, plenty of
crystal. -/
def c2CounterBase : Base :=
  { uid := 1, x := 0, y := 0, crystal := 100, mines := 0, cost := fun _ => 10 }

/-- The counterexample snapshot for C2. -/
def c2CounterInfo : List (String × TeamRecord) :=
  [("Me", { bases := some [c2CounterBase], tanks := none, ships := none, jets := none })]

/-- C2 counterexample: at elapsed time 400 (late phase) the same kind of
base builds a jet and no mine. -/
theorem c2_counterexample :
    runCmds initState "Me" 400 0 c2CounterInfo (fun _ => 1/2) 0 =
      Except.ok [Command.build_jet 1 (360 * (fun _ : Nat => (1 : ℚ)/2) 0)] ∧
      Command.build_mine 1 ∉ [Command.build_jet 1 (360 * (fun _ : Nat => (1 : ℚ)/2) 0)] :=
  ⟨rfl, by simp⟩

/-! C3 -/

theorem earlyAct_delta_tank1 (rng : Nat → ℚ) (st : AgentState) (r : Nat) (b : Base)
    (hm : ¬ b.mines < 3) (ha : b.crystal > b.cost "tank")
    (hnt : (st.ntanks b.uid).getD 0 < 2) :
    (earlyAct rng st r b).2.1 = [Command.build_tank b.uid (360 * rng r)] := by
  simp [earlyAct, hm, ha, hnt, registerBase_ntanks_self]

theorem earlyAct_delta_ship (rng : Nat → ℚ) (st : AgentState) (r : Nat) (b : Base)
    (hm : ¬ b.mines < 3)
    (h1 : ¬ (b.crystal > b.cost "tank" ∧ (st.ntanks b.uid).getD 0 < 2))
    (ha : b.crystal > b.cost "ship") (hns : (st.nships b.uid).getD 0 < 6) :
    (earlyAct rng st r b).2.1 = [Command.build_ship b.uid (360 * rng r)] := by
  simp only [earlyAct, registerBase_ntanks_self, registerBase_nships_self, Option.getD_some]
  rw [if_neg hm, if_neg h1, if_pos ⟨ha, hns⟩]

theorem earlyAct_delta_tank2 (rng : Nat → ℚ) (st : AgentState) (r : Nat) (b : Base)
    (hm : ¬ b.mines < 3)
    (h1 : ¬ (b.crystal > b.cost "tank" ∧ (st.ntanks b.uid).getD 0 < 2))
    (h2 : ¬ (b.crystal > b.cost "ship" ∧ (st.nships b.uid).getD 0 < 6))
    (ha : b.crystal > b.cost "tank") (hnt : (st.ntanks b.uid).getD 0 < 5)
    (hns : (st.nships b.uid).getD 0 ≥ 6) :
    (earlyAct rng st r b).2.1 = [Command.build_tank b.uid (360 * rng r)] := by
  simp only [earlyAct, registerBase_ntanks_self, registerBase_nships_self, Option.getD_some]
  rw [if_neg hm, if_neg h1, if_neg h2, if_pos ⟨ha, hnt, hns⟩]

theorem earlyAct_delta_jet (rng : Nat → ℚ) (st : AgentState) (r : Nat) (b : Base)
    (hm : ¬ b.mines < 3)
    (h1 : ¬ (b.crystal > b.cost "tank" ∧ (st.ntanks b.uid).getD 0 < 2))
    (h2 : ¬ (b.crystal > b.cost "ship" ∧ (st.nships b.uid).getD 0 < 6))
    (h3 : ¬ (b.crystal > b.cost "tank" ∧ (st.ntanks b.uid).getD 0 < 5 ∧
      (st.nships b.uid).getD 0 ≥ 6))
    (ha : b.crystal > b.cost "jet") :
    (earlyAct rng st r b).2.1 = [Command.build_jet b.uid (360 * rng r)] := by
  simp only [earlyAct, registerBase_ntanks_self, registerBase_nships_self, Option.getD_some]
  rw [if_neg hm, if_neg h1, if_neg h2, if_neg h3, if_pos ha]

theorem earlyAct_delta_none (rng : Nat → ℚ) (st : AgentState) (r : Nat) (b : Base)
    (hm : ¬ b.mines < 3)
    (h1 : ¬ (b.crystal > b.cost "tank" ∧ (st.ntanks b.uid).getD 0 < 2))
    (h2 : ¬ (b.crystal > b.cost "ship" ∧ (st.nships b.uid).getD 0 < 6))
    (h3 : ¬ (b.crystal > b.cost "tank" ∧ (st.ntanks b.uid).getD 0 < 5 ∧
      (st.nships b.uid).getD 0 ≥ 6))
    (ha : ¬ b.crystal > b.cost "jet") :
    (earlyAct rng st r b).2.1 = [] := by
  simp only [earlyAct, registerBase_ntanks_self, registerBase_nships_self, Option.getD_some]
  rw [if_neg hm, if_neg h1, if_neg h2, if_neg h3, if_neg ha]

/-- Only the strategy segment of a run contributes to build-command
counts. -/
theorem countP_run_segments_builds (ph : Phase) (team : String)
    (info : List (String × TeamRecord)) (rng : Nat → ℚ)
    (bases : List Base) (tanks : List Tank) (ships : List Ship)
    (stA : AgentState) (rA : Nat) (stB : AgentState) (rB : Nat)
    (stC : AgentState) (rC : Nat) (myinfo : TeamRecord) (target : Option (ℚ × ℚ))
    (p : Command → Bool) (hp : ∀ c : Command, c.isBuild = false → p c = false) :
    (foldDelta (stratAct ph rng) stA rA bases ++
        (foldDelta (tankAct team info rng) stB rB tanks ++
          (foldDelta (shipAct rng) stC rC ships ++ jetCmds myinfo target))).countP p =
      (foldDelta (stratAct ph rng) stA rA bases).countP p := by
  simp only [List.countP_append]
  rw [tanksDelta_no_builds team info rng _ _ _ _ (fun c h1 _ => hp c h1),
    shipsDelta_no_builds rng _ _ _ _ (fun c h1 _ => hp c h1),
    jetCmds_countP_zero _ _ _ (fun c h1 => hp c (isBuild_false_of_isGotoCmd h1))]
  omega

/-- C3 (amended): in the early phase the per-base build order is the chain
of the source: the first branch is guarded by mines < 3 alone, with the
affordability test nested inside it, so a base with mines < 3 that cannot
afford a mine builds nothing that tick; the remaining branches fire only
when mines >= 3, in the stated order, each issuing exactly its single
construction.  (As stated the claim is false: an unaffordable mine does not
fall through to the later conditions.) -/
theorem c3_early_build_order (st : AgentState) (team : String) (t dt : ℚ)
    (info : List (String × TeamRecord)) (rng : Nat → ℚ) (ridx : Nat)
    (st' : AgentState) (cmds : List Command) (r' : Nat)
    (myinfo : TeamRecord) (bases : List Base) (b : Base)
    (hrun : run st team t dt info rng ridx = Except.ok (st', cmds, r'))
    (hph : phaseOf t = Phase.early)
    (hlk : info.lookup team = some myinfo)
    (hbs : myinfo.bases = some bases)
    (hnd : (bases.map Base.uid).Nodup)
    (hmem : b ∈ bases) :
    (b.mines < 3 → b.crystal > b.cost "mine" →
      cmds.countP (isBuildMineAt b.uid) = 1 ∧
        cmds.countP (fun c => isBuildTankAt b.uid c || isBuildShipAt b.uid c ||
          isBuildJetAt b.uid c) = 0) ∧
    (b.mines < 3 → ¬ b.crystal > b.cost "mine" →
      cmds.countP (fun c => isBuildMineAt b.uid c || isBuildTankAt b.uid c ||
        isBuildShipAt b.uid c || isBuildJetAt b.uid c) = 0) ∧
    (¬ b.mines < 3 → b.crystal > b.cost "tank" → (st.ntanks b.uid).getD 0 < 2 →
      cmds.countP (isBuildTankAt b.uid) = 1 ∧
        cmds.countP (fun c => isBuildMineAt b.uid c || isBuildShipAt b.uid c ||
          isBuildJetAt b.uid c) = 0) ∧
    (¬ b.mines < 3 → ¬ (b.crystal > b.cost "tank" ∧ (st.ntanks b.uid).getD 0 < 2) →
      b.crystal > b.cost "ship" → (st.nships b.uid).getD 0 < 6 →
      cmds.countP (isBuildShipAt b.uid) = 1 ∧
        cmds.countP (fun c => isBuildMineAt b.uid c || isBuildTankAt b.uid c ||
          isBuildJetAt b.uid c) = 0) ∧
    (¬ b.mines < 3 → ¬ (b.crystal > b.cost "tank" ∧ (st.ntanks b.uid).getD 0 < 2) →
      ¬ (b.crystal > b.cost "ship" ∧ (st.nships b.uid).getD 0 < 6) →
      b.crystal > b.cost "tank" → (st.ntanks b.uid).getD 0 < 5 →
      (st.nships b.uid).getD 0 ≥ 6 →
      cmds.countP (isBuildTankAt b.uid) = 1 ∧
        cmds.countP (fun c => isBuildMineAt b.uid c || isBuildShipAt b.uid c ||
          isBuildJetAt b.uid c) = 0) ∧
    (¬ b.mines < 3 → ¬ (b.crystal > b.cost "tank" ∧ (st.ntanks b.uid).getD 0 < 2) →
      ¬ (b.crystal > b.cost "ship" ∧ (st.nships b.uid).getD 0 < 6) →
      ¬ (b.crystal > b.cost "tank" ∧ (st.ntanks b.uid).getD 0 < 5 ∧
        (st.nships b.uid).getD 0 ≥ 6) →
      b.crystal > b.cost "jet" →
      cmds.countP (isBuildJetAt b.uid) = 1 ∧
        cmds.countP (fun c => isBuildMineAt b.uid c || isBuildTankAt b.uid c ||
          isBuildShipAt b.uid c) = 0) := by
  rcases run_ok_decomp st team t dt info rng ridx st' cmds r' hrun with
    ⟨myinfo2, bases2, hlk2, hbs2, _, hmain⟩
  rw [hlk] at hlk2
  obtain rfl : myinfo = myinfo2 := by injection hlk2
  rw [hbs] at hbs2
  obtain rfl : bases = bases2 := by injection hbs2
  obtain ⟨hst, hr, hcmds⟩ := hmain
  rcases foldDelta_countP_split (stratAct (phaseOf t) rng) Base.uid
      (fun s2 r2 x c hc => (stratAct_cmds_build (phaseOf t) rng s2 r2 x c hc).2)
      (fun s2 r2 x v hv => stratAct_counters_other (phaseOf t) rng s2 r2 x v hv)
      bases st ridx b hnd hmem with ⟨st1, r1, ht1, hs1, hcount⟩
  rw [hph] at hcount
  have hgetT : (st1.ntanks b.uid).getD 0 = (st.ntanks b.uid).getD 0 := by rw [ht1]
  have hgetS : (st1.nships b.uid).getD 0 = (st.nships b.uid).getD 0 := by rw [hs1]
  have hA : ∀ p : Command → Bool, (∀ c : Command, c.targetUid ≠ b.uid → p c = false) →
      (∀ c : Command, c.isBuild = false → p c = false) →
      cmds.countP p = ((earlyAct rng st1 r1 b).2.1).countP p := by
    intro p hp1 hp2
    rw [hcmds, hph]
    rw [countP_run_segments_builds Phase.early team info rng bases
      (myinfo.tanks.getD []) (myinfo.ships.getD []) _ _ _ _ _ _ myinfo _ p hp2]
    exact hcount p hp1
  have hpM1 : ∀ c : Command, c.targetUid ≠ b.uid → isBuildMineAt b.uid c = false :=
    fun c hc => (classifiers_false_of_ne hc).1
  have hpT1 : ∀ c : Command, c.targetUid ≠ b.uid → isBuildTankAt b.uid c = false :=
    fun c hc => (classifiers_false_of_ne hc).2.1
  have hpS1 : ∀ c : Command, c.targetUid ≠ b.uid → isBuildShipAt b.uid c = false :=
    fun c hc => (classifiers_false_of_ne hc).2.2.1
  have hpJ1 : ∀ c : Command, c.targetUid ≠ b.uid → isBuildJetAt b.uid c = false :=
    fun c hc => (classifiers_false_of_ne hc).2.2.2.1
  have hpM2 : ∀ c : Command, c.isBuild = false → isBuildMineAt b.uid c = false :=
    fun c hc => (build_classifiers_false_of_not_isBuild hc).1
  have hpT2 : ∀ c : Command, c.isBuild = false → isBuildTankAt b.uid c = false :=
    fun c hc => (build_classifiers_false_of_not_isBuild hc).2.1
  have hpS2 : ∀ c : Command, c.isBuild = false → isBuildShipAt b.uid c = false :=
    fun c hc => (build_classifiers_false_of_not_isBuild hc).2.2.1
  have hpJ2 : ∀ c : Command, c.isBuild = false → isBuildJetAt b.uid c = false :=
    fun c hc => (build_classifiers_false_of_not_isBuild hc).2.2.2
  refine ⟨?_, ?_, ?_, ?_, ?_, ?_⟩
  · intro hm ha
    have hd := earlyAct_delta_mine rng st1 r1 b hm ha
    constructor
    · rw [hA (isBuildMineAt b.uid) hpM1 hpM2, hd]
      simp [List.countP_cons, isBuildMineAt]
    · rw [hA _ (fun c hc => by simp [hpT1 c hc, hpS1 c hc, hpJ1 c hc])
        (fun c hc => by simp [hpT2 c hc, hpS2 c hc, hpJ2 c hc]), hd]
      simp [List.countP_cons, isBuildTankAt, isBuildShipAt, isBuildJetAt]
  · intro hm ha
    have hd := earlyAct_delta_mine_blocked rng st1 r1 b hm ha
    rw [hA _ (fun c hc => by simp [hpM1 c hc, hpT1 c hc, hpS1 c hc, hpJ1 c hc])
      (fun c hc => by simp [hpM2 c hc, hpT2 c hc, hpS2 c hc, hpJ2 c hc]), hd]
    simp
  · intro hm ha hnt
    have hd := earlyAct_delta_tank1 rng st1 r1 b hm ha (by rw [hgetT]; exact hnt)
    constructor
    · rw [hA (isBuildTankAt b.uid) hpT1 hpT2, hd]
      simp [List.countP_cons, isBuildTankAt]
    · rw [hA _ (fun c hc => by simp [hpM1 c hc, hpS1 c hc, hpJ1 c hc])
        (fun c hc => by simp [hpM2 c hc, hpS2 c hc, hpJ2 c hc]), hd]
      simp [List.countP_cons, isBuildMineAt, isBuildShipAt, isBuildJetAt]
  · intro hm h1 ha hns
    have hd := earlyAct_delta_ship rng st1 r1 b hm (by rw [hgetT]; exact h1) ha
      (by rw [hgetS]; exact hns)
    constructor
    · rw [hA (isBuildShipAt b.uid) hpS1 hpS2, hd]
      simp [List.countP_cons, isBuildShipAt]
    · rw [hA _ (fun c hc => by simp [hpM1 c hc, hpT1 c hc, hpJ1 c hc])
        (fun c hc => by simp [hpM2 c hc, hpT2 c hc, hpJ2 c hc]), hd]
      simp [List.countP_cons, isBuildMineAt, isBuildTankAt, isBuildJetAt]
  · intro hm h1 h2 ha hnt hns
    have hd := earlyAct_delta_tank2 rng st1 r1 b hm (by rw [hgetT]; exact h1)
      (by rw [hgetS]; exact h2) ha (by rw [hgetT]; exact hnt) (by rw [hgetS]; exact hns)
    constructor
    · rw [hA (isBuildTankAt b.uid) hpT1 hpT2, hd]
      simp [List.countP_cons, isBuildTankAt]
    · rw [hA _ (fun c hc => by simp [hpM1 c hc, hpS1 c hc, hpJ1 c hc])
        (fun c hc => by simp [hpM2 c hc, hpS2 c hc, hpJ2 c hc]), hd]
      simp [List.countP_cons, isBuildMineAt, isBuildShipAt, isBuildJetAt]
  · intro hm h1 h2 h3 ha
    have hd := earlyAct_delta_jet rng st1 r1 b hm (by rw [hgetT]; exact h1)
      (by rw [hgetS]; exact h2) (by rw [hgetT, hgetS]; exact h3) ha
    constructor
    · rw [hA (isBuildJetAt b.uid) hpJ1 hpJ2, hd]
      simp [List.countP_cons, isBuildJetAt]
    · rw [hA _ (fun c hc => by simp [hpM1 c hc, hpT1 c hc, hpS1 c hc])
        (fun c hc => by simp [hpM2 c hc, hpT2 c hc, hpS2 c hc]), hd]
      simp [List.countP_cons, isBuildMineAt, isBuildTankAt, isBuildShipAt]

/-- The counterexample base for C3: mines below the cap, mine unaffordable,
tank affordable. -/
def c3CounterBase : Base :=
  { uid := 1, x := 0, y := 0, crystal := 10, mines := 0,
    cost := fun k => if k = "mine" then 20 else 5 }

/-- The counterexample snapshot for C3. -/
def c3CounterInfo : List (String × TeamRecord) :=
  [("Me", { bases := some [c3CounterBase], tanks := none, ships := none, jets := none })]

/-- C3 counterexample: the base has mines < 3, cannot afford the mine, can
afford a tank and has built no tanks, yet the early phase issues no
construction at all, instead of falling through to the tank condition. -/
theorem c3_counterexample :
    runCmds initState "Me" 0 0 c3CounterInfo (fun _ => 0) 0 = Except.ok [] ∧
      c3CounterBase.mines < 3 ∧ ¬ c3CounterBase.crystal > c3CounterBase.cost "mine" ∧
      c3CounterBase.crystal > c3CounterBase.cost "tank" :=
  ⟨rfl, by decide, by decide, by decide⟩

/-- Witness for C3 (amended), exercising the corrected mine-blocked branch
on the concrete snapshot. -/
theorem c3_early_build_order_witness :
    (([] : List Command).countP (fun c => isBuildMineAt 1 c || isBuildTankAt 1 c ||
      isBuildShipAt 1 c || isBuildJetAt 1 c) = 0) :=
  (c3_early_build_order initState "Me" 0 0 c3CounterInfo (fun _ => 0) 0
    _ [] _ _ [c3CounterBase] c3CounterBase rfl rfl rfl rfl (by decide)
    (List.mem_singleton_self c3CounterBase)).2.1 (by decide) (by decide)

/-! C8 -/

/-- One run never decreases a build counter. -/
theorem run_counters_mono (st : AgentState) (team : String) (t dt : ℚ)
    (info : List (String × TeamRecord)) (rng : Nat → ℚ) (ridx : Nat)
    (st' : AgentState) (cmds : List Command) (r' : Nat)
    (hrun : run st team t dt info rng ridx = Except.ok (st', cmds, r')) (u : Nat) :
    (∀ n, st.ntanks u = some n → ∃ m, st'.ntanks u = some m ∧ n ≤ m) ∧
      (∀ n, st.nships u = some n → ∃ m, st'.nships u = some m ∧ n ≤ m) := by
  rcases run_ok_decomp st team t dt info rng ridx st' cmds r' hrun with
    ⟨myinfo, bases, _, _, _, hmain⟩
  obtain ⟨hst, _, _⟩ := hmain
  have hnt : st'.ntanks = (foldState (stratAct (phaseOf t) rng) st ridx bases).ntanks := by
    rw [hst, ships_foldState, tanks_foldState]
  have hns : st'.nships = (foldState (stratAct (phaseOf t) rng) st ridx bases).nships := by
    rw [hst, ships_foldState, tanks_foldState]
  rw [hnt, hns]
  exact foldState_counters_mono (stratAct (phaseOf t) rng) Base.uid
    (fun s2 r2 x v hv => stratAct_counters_other (phaseOf t) rng s2 r2 x v hv)
    (fun s2 r2 x => stratAct_ntanks_self (phaseOf t) rng s2 r2 x)
    (fun s2 r2 x => stratAct_nships_self (phaseOf t) rng s2 r2 x)
    bases st ridx u

/-- Across a sequence of runs the build counters never decrease. -/
theorem runSeq_counters_mono (team : String) :
    ∀ (calls : List CallInput) (st st2 : AgentState),
      runSeq team st calls = Except.ok st2 → ∀ u : Nat,
      (∀ n, st.ntanks u = some n → ∃ m, st2.ntanks u = some m ∧ n ≤ m) ∧
        (∀ n, st.nships u = some n → ∃ m, st2.nships u = some m ∧ n ≤ m) := by
  intro calls
  induction calls with
  | nil =>
    intro st st2 h u
    simp only [runSeq, Except.ok.injEq] at h
    subst h
    exact ⟨fun n hn => ⟨n, hn, le_refl n⟩, fun n hn => ⟨n, hn, le_refl n⟩⟩
  | cons ci rest ih =>
    intro st st2 h u
    simp only [runSeq] at h
    cases hr : run st team ci.t ci.dt ci.info ci.rng ci.ridx with
    | error e => rw [hr] at h; simp at h
    | ok out =>
      rw [hr] at h
      rcases out with ⟨stMid, cmdsMid, rMid⟩
      have h1 := run_counters_mono st team ci.t ci.dt ci.info ci.rng ci.ridx
        stMid cmdsMid rMid hr u
      have h2 := ih stMid st2 h u
      constructor
      · intro n hn
        rcases h1.1 n hn with ⟨m1, hm1, hle1⟩
        rcases h2.1 m1 hm1 with ⟨m2, hm2, hle2⟩
        exact ⟨m2, hm2, le_trans hle1 hle2⟩
      · intro n hn
        rcases h1.2 n hn with ⟨m1, hm1, hle1⟩
        rcases h2.2 m1 hm1 with ⟨m2, hm2, hle2⟩
        exact ⟨m2, hm2, le_trans hle1 hle2⟩

/-- C8: per call, a base uid absent from this tick's bases keeps both
counters (and sees no tank or ship build); a present uid's counters land
exactly on their old value (0 on first sight) plus the number of tank or
ship builds issued at that base this tick, which is at most one each; and
across any sequence of calls on one instance the counters never decrease. -/
theorem c8_build_counters (st : AgentState) (team : String) (t dt : ℚ)
    (info : List (String × TeamRecord)) (rng : Nat → ℚ) (ridx : Nat)
    (st' : AgentState) (cmds : List Command) (r' : Nat)
    (myinfo : TeamRecord) (bases : List Base)
    (hrun : run st team t dt info rng ridx = Except.ok (st', cmds, r'))
    (hlk : info.lookup team = some myinfo)
    (hbs : myinfo.bases = some bases)
    (hnd : (bases.map Base.uid).Nodup) :
    (∀ u : Nat, u ∉ bases.map Base.uid →
      st'.ntanks u = st.ntanks u ∧ st'.nships u = st.nships u ∧
        cmds.countP (isBuildTankAt u) = 0 ∧ cmds.countP (isBuildShipAt u) = 0) ∧
    (∀ u : Nat, u ∈ bases.map Base.uid →
      st'.ntanks u = some ((st.ntanks u).getD 0 + cmds.countP (isBuildTankAt u)) ∧
        st'.nships u = some ((st.nships u).getD 0 + cmds.countP (isBuildShipAt u)) ∧
        cmds.countP (isBuildTankAt u) ≤ 1 ∧ cmds.countP (isBuildShipAt u) ≤ 1) ∧
    (∀ (calls : List CallInput) (st2 : AgentState),
      runSeq team st calls = Except.ok st2 → ∀ u : Nat,
      (∀ n, st.ntanks u = some n → ∃ m, st2.ntanks u = some m ∧ n ≤ m) ∧
        (∀ n, st.nships u = some n → ∃ m, st2.nships u = some m ∧ n ≤ m)) := by
  rcases run_ok_decomp st team t dt info rng ridx st' cmds r' hrun with
    ⟨myinfo2, bases2, hlk2, hbs2, _, hmain⟩
  rw [hlk] at hlk2
  obtain rfl : myinfo = myinfo2 := by injection hlk2
  rw [hbs] at hbs2
  obtain rfl : bases = bases2 := by injection hbs2
  obtain ⟨hst, _, hcmds⟩ := hmain
  have hnt : st'.ntanks = (foldState (stratAct (phaseOf t) rng) st ridx bases).ntanks := by
    rw [hst, ships_foldState, tanks_foldState]
  have hns : st'.nships = (foldState (stratAct (phaseOf t) rng) st ridx bases).nships := by
    rw [hst, ships_foldState, tanks_foldState]
  have hcT : ∀ u : Nat, cmds.countP (isBuildTankAt u) =
      (foldDelta (stratAct (phaseOf t) rng) st ridx bases).countP (isBuildTankAt u) := by
    intro u
    rw [hcmds]
    exact countP_run_segments_builds (phaseOf t) team info rng bases _ _ _ _ _ _ _ _ myinfo _
      (isBuildTankAt u) (fun c h1 => (build_classifiers_false_of_not_isBuild h1).2.1)
  have hcS : ∀ u : Nat, cmds.countP (isBuildShipAt u) =
      (foldDelta (stratAct (phaseOf t) rng) st ridx bases).countP (isBuildShipAt u) := by
    intro u
    rw [hcmds]
    exact countP_run_segments_builds (phaseOf t) team info rng bases _ _ _ _ _ _ _ _ myinfo _
      (isBuildShipAt u) (fun c h1 => (build_classifiers_false_of_not_isBuild h1).2.2.1)
  refine ⟨?_, ?_, ?_⟩
  · intro u hu
    have h1 := foldState_counters_of_acts (stratAct (phaseOf t) rng) Base.uid
      (fun s2 r2 x v hv => stratAct_counters_other (phaseOf t) rng s2 r2 x v hv)
      bases st ridx u hu
    refine ⟨by rw [hnt]; exact h1.1, by rw [hns]; exact h1.2, ?_, ?_⟩
    · rw [hcT u]
      exact foldDelta_countP_zero _ Base.uid
        (fun s2 r2 x c hc => (stratAct_cmds_build (phaseOf t) rng s2 r2 x c hc).2)
        bases st ridx u _ (fun c hc => (classifiers_false_of_ne hc).2.1) hu
    · rw [hcS u]
      exact foldDelta_countP_zero _ Base.uid
        (fun s2 r2 x c hc => (stratAct_cmds_build (phaseOf t) rng s2 r2 x c hc).2)
        bases st ridx u _ (fun c hc => (classifiers_false_of_ne hc).2.2.1) hu
  · intro u hu
    have h1 := foldState_ntanks_of_acts (stratAct (phaseOf t) rng) Base.uid
      (fun s2 r2 x v hv => stratAct_counters_other (phaseOf t) rng s2 r2 x v hv)
      (fun s2 r2 x => stratAct_ntanks_self (phaseOf t) rng s2 r2 x)
      (fun s2 r2 x c hc => (stratAct_cmds_build (phaseOf t) rng s2 r2 x c hc).2)
      (fun s2 r2 x => stratAct_len (phaseOf t) rng s2 r2 x)
      bases st ridx u hnd hu
    have h2 := foldState_nships_of_acts (stratAct (phaseOf t) rng) Base.uid
      (fun s2 r2 x v hv => stratAct_counters_other (phaseOf t) rng s2 r2 x v hv)
      (fun s2 r2 x => stratAct_nships_self (phaseOf t) rng s2 r2 x)
      (fun s2 r2 x c hc => (stratAct_cmds_build (phaseOf t) rng s2 r2 x c hc).2)
      (fun s2 r2 x => stratAct_len (phaseOf t) rng s2 r2 x)
      bases st ridx u hnd hu
    refine ⟨?_, ?_, ?_, ?_⟩
    · rw [hnt, hcT u]; exact h1.1
    · rw [hns, hcS u]; exact h2.1
    · rw [hcT u]; exact h1.2
    · rw [hcS u]; exact h2.2
  · exact fun calls st2 h u => runSeq_counters_mono team calls st st2 h u

/-- The witness base for C8: enough mines, a tank build will fire. -/
def c8WitnessBase : Base :=
  { uid := 3, x := 0, y := 0, crystal := 100, mines := 5, cost := fun _ => 50 }

/-- The witness snapshot for C8. -/
def c8WitnessInfo : List (String × TeamRecord) :=
  [("Me", { bases := some [c8WitnessBase], tanks := none, ships := none, jets := none })]

/-- The witness random stream for C8. -/
def c8WitnessRng : Nat → ℚ := fun _ => 0

/-- Witness for C8 on a concrete run that issues one tank build. -/
theorem c8_build_counters_witness :
    ([Command.build_tank 3 (360 * c8WitnessRng 0)] : List Command).countP
        (isBuildTankAt 3) ≤ 1 ∧
      ([Command.build_tank 3 (360 * c8WitnessRng 0)] : List Command).countP
        (isBuildShipAt 3) ≤ 1 :=
  ⟨((c8_build_counters initState "Me" 0 0 c8WitnessInfo c8WitnessRng 0
      _ [Command.build_tank 3 (360 * c8WitnessRng 0)] _ _ [c8WitnessBase] rfl rfl rfl
      (by decide)).2.1 3 (by decide)).2.2.1,
    ((c8_build_counters initState "Me" 0 0 c8WitnessInfo c8WitnessRng 0
      _ [Command.build_tank 3 (360 * c8WitnessRng 0)] _ _ [c8WitnessBase] rfl rfl rfl
      (by decide)).2.1 3 (by decide)).2.2.2⟩

/-! C10 -/

/-- C10: after a completed run the previous-position dictionary holds
exactly its old keys plus this tick's tank and ship uids; untouched keys
keep their values (so no entry is ever removed); with engine-unique uids
every tank and ship uid maps to this tick's position; and jet uids are
never added nor altered. -/
theorem c10_previous_positions (st : AgentState) (team : String) (t dt : ℚ)
    (info : List (String × TeamRecord)) (rng : Nat → ℚ) (ridx : Nat)
    (st' : AgentState) (cmds : List Command) (r' : Nat) (myinfo : TeamRecord)
    (hrun : run st team t dt info rng ridx = Except.ok (st', cmds, r'))
    (hlk : info.lookup team = some myinfo) :
    (∀ u : Nat, (st'.previous_positions u).isSome = true ↔
      (st.previous_positions u).isSome = true ∨
        u ∈ (myinfo.tanks.getD []).map Tank.uid ∨
        u ∈ (myinfo.ships.getD []).map Ship.uid) ∧
    (∀ u : Nat, u ∉ (myinfo.tanks.getD []).map Tank.uid →
      u ∉ (myinfo.ships.getD []).map Ship.uid →
      st'.previous_positions u = st.previous_positions u) ∧
    (((myinfo.tanks.getD []).map Tank.uid ++ (myinfo.ships.getD []).map Ship.uid).Nodup →
      (∀ tk ∈ myinfo.tanks.getD [], st'.previous_positions tk.uid = some tk.position) ∧
      (∀ sp ∈ myinfo.ships.getD [], st'.previous_positions sp.uid = some sp.position)) ∧
    (∀ jets : List Jet, myinfo.jets = some jets → ∀ j ∈ jets,
      j.uid ∉ (myinfo.tanks.getD []).map Tank.uid →
      j.uid ∉ (myinfo.ships.getD []).map Ship.uid →
      st'.previous_positions j.uid = st.previous_positions j.uid) := by
  rcases run_ok_decomp st team t dt info rng ridx st' cmds r' hrun with
    ⟨myinfo2, bases, hlk2, hbs, _, hmain⟩
  rw [hlk] at hlk2
  obtain rfl : myinfo = myinfo2 := by injection hlk2
  obtain ⟨hst, _, _⟩ := hmain
  have hprev : st'.previous_positions =
      posFold Ship.uid Ship.position (myinfo.ships.getD [])
        (posFold Tank.uid Tank.position (myinfo.tanks.getD []) st.previous_positions) := by
    rw [hst, ships_foldState, tanks_foldState]
    simp only []
    rw [foldState_prev_of_acts (stratAct (phaseOf t) rng)
      (stratAct_prev (phaseOf t) rng) bases st ridx]
  refine ⟨?_, ?_, ?_, ?_⟩
  · intro u
    rw [hprev, posFold_isSome, posFold_isSome]
    tauto
  · intro u hut hus
    rw [hprev, posFold_not_mem _ _ _ _ _ hus, posFold_not_mem _ _ _ _ _ hut]
  · intro hnd
    constructor
    · intro tk htk
      have hdisj := List.disjoint_of_nodup_append hnd
      have hnotship : tk.uid ∉ (myinfo.ships.getD []).map Ship.uid :=
        fun hc => hdisj (List.mem_map_of_mem Tank.uid htk) hc
      rw [hprev, posFold_not_mem _ _ _ _ _ hnotship,
        posFold_mem_nodup _ _ _ _ tk hnd.of_append_left htk]
    · intro sp hsp
      rw [hprev, posFold_mem_nodup _ _ _ _ sp hnd.of_append_right hsp]
  · intro jets _ j _ hjt hjs
    rw [hprev, posFold_not_mem _ _ _ _ _ hjs, posFold_not_mem _ _ _ _ _ hjt]

/-- The witness tank for C10. -/
def c10WitnessTank : Tank := { uid := 7, x := 3, y := 4, stopped := false, goto_fails := false }

/-- The witness snapshot for C10. -/
def c10WitnessInfo : List (String × TeamRecord) :=
  [("Me", { bases := some [], tanks := some [c10WitnessTank], ships := none, jets := none })]

/-- The state a witness run of C10 ends in. -/
def c10WitnessOut : AgentState :=
  { previous_positions := upd (fun _ => none) 7 (3, 4),
    ntanks := fun _ => none, nships := fun _ => none }

/-- Witness for C10 on a concrete run that records one tank position. -/
theorem c10_previous_positions_witness :
    c10WitnessOut.previous_positions 7 = some (3, 4) ∧
      c10WitnessOut.previous_positions 99 = initState.previous_positions 99 :=
  ⟨((c10_previous_positions initState "Me" 0 0 c10WitnessInfo (fun _ => 0) 0
      c10WitnessOut [] 0 _ rfl rfl).2.2.1 (by decide)).1 c10WitnessTank
      (List.mem_singleton_self _),
    (c10_previous_positions initState "Me" 0 0 c10WitnessInfo (fun _ => 0) 0
      c10WitnessOut [] 0 _ rfl rfl).2.1 99 (by decide) (by decide)⟩

/-! C5 -/

theorem pySorted_head_isSome {α : Type} (key : α → ℚ) {l : List α} (h : l ≠ []) :
    ∃ b, (pySorted key l).head? = some b := by
  have h2 : pySorted key l ≠ [] := fun hc => h ((pySorted_eq_nil_iff key).mp hc)
  cases hq : (pySorted key l).head? with
  | none => exact absurd (List.head?_eq_none_iff.mp hq) h2
  | some b => exact ⟨b, rfl⟩

theorem isGotoFor_false_of_not_isGotoCmd {u : Nat} {c : Command} (h : isGotoCmd c = false) :
    isGotoFor u c = false := by
  cases c <;> simp_all [isGotoCmd, isGotoFor]

theorem jetCmds_targetUid (myinfo : TeamRecord) (target : Option (ℚ × ℚ)) :
    ∀ c ∈ jetCmds myinfo target, ∃ j ∈ myinfo.jets.getD [], c.targetUid = j.uid := by
  cases hj : myinfo.jets with
  | none =>
    intro c hc
    unfold jetCmds at hc
    rw [hj] at hc
    simp at hc
  | some jets =>
    cases ht : target with
    | none =>
      intro c hc
      unfold jetCmds at hc
      rw [hj] at hc
      simp at hc
    | some tp =>
      intro c hc
      unfold jetCmds at hc
      rw [hj] at hc
      dsimp only at hc
      rcases List.mem_map.mp hc with ⟨j, hjm, rfl⟩
      exact ⟨j, by simpa using hjm, rfl⟩

theorem not_mem_map_of_ne {β : Type} (key : β → Nat) {l : List β} {u : Nat}
    (h : ∀ x ∈ l, key x ≠ u) : u ∉ l.map key := by
  intro hc
  rcases List.mem_map.mp hc with ⟨x, hx, hkx⟩
  exact h x hx hkx

/-- C5: a tracked, unstopped tank that did not move gets exactly one random
heading in [0, 360) and no navigation; one that moved navigates to a nearest
enemy base (by squared Euclidean distance) when one exists and its
navigation does not fail; and its position is recorded in every case. -/
theorem c5_tank_behavior (st : AgentState) (team : String) (t dt : ℚ)
    (info : List (String × TeamRecord)) (rng : Nat → ℚ) (ridx : Nat)
    (st' : AgentState) (cmds : List Command) (r' : Nat)
    (myinfo : TeamRecord) (tanks : List Tank) (tk : Tank) (prev : ℚ × ℚ)
    (hrun : run st team t dt info rng ridx = Except.ok (st', cmds, r'))
    (hrng : ∀ i, 0 ≤ rng i ∧ rng i < 1)
    (hlk : info.lookup team = some myinfo)
    (htks : myinfo.tanks = some tanks)
    (hnd : (tanks.map Tank.uid).Nodup)
    (htk : tk ∈ tanks)
    (hprev : st.previous_positions tk.uid = some prev)
    (hstop : tk.stopped = false)
    (hship : ∀ sp ∈ myinfo.ships.getD [], sp.uid ≠ tk.uid)
    (hjet : ∀ j ∈ myinfo.jets.getD [], j.uid ≠ tk.uid) :
    (tk.position = prev →
      cmds.countP (isSetHeadingFor tk.uid) = 1 ∧
        cmds.countP (isGotoFor tk.uid) = 0 ∧
        (∀ c ∈ cmds, ∀ v : ℚ, c = Command.set_heading tk.uid v → 0 ≤ v ∧ v < 360)) ∧
    (tk.position ≠ prev → enemyBases team info ≠ [] →
      ∃ nb, nb ∈ enemyBases team info ∧
        (∀ b ∈ enemyBases team info,
          (nb.x - tk.x) ^ 2 + (nb.y - tk.y) ^ 2 ≤ (b.x - tk.x) ^ 2 + (b.y - tk.y) ^ 2) ∧
        (tk.goto_fails = false → Command.goto tk.uid nb.x nb.y ∈ cmds)) ∧
    st'.previous_positions tk.uid = some tk.position := by
  rcases run_ok_decomp st team t dt info rng ridx st' cmds r' hrun with
    ⟨myinfo2, bases, hlk2, hbs, _, hmain⟩
  rw [hlk] at hlk2
  obtain rfl : myinfo = myinfo2 := by injection hlk2
  obtain ⟨hst, _, hcmds⟩ := hmain
  have htksD : myinfo.tanks.getD [] = tanks := by rw [htks]; rfl
  have hS1prev : (foldState (stratAct (phaseOf t) rng) st ridx bases).previous_positions =
      st.previous_positions :=
    foldState_prev_of_acts (stratAct (phaseOf t) rng) (stratAct_prev (phaseOf t) rng)
      bases st ridx
  have hshipm : tk.uid ∉ (myinfo.ships.getD []).map Ship.uid :=
    not_mem_map_of_ne Ship.uid hship
  have hjetm : ∀ c ∈ jetCmds myinfo (powerTarget team info), isGotoFor tk.uid c = false := by
    intro c hc
    rcases jetCmds_targetUid myinfo (powerTarget team info) c hc with ⟨j, hj, hcj⟩
    exact (classifiers_false_of_ne (hcj ▸ hjet j hj)).2.2.2.2.2.1
  have hshipsSH : ∀ (st2 : AgentState) (r2 : Nat),
      (foldDelta (shipAct rng) st2 r2 (myinfo.ships.getD [])).countP
        (isSetHeadingFor tk.uid) = 0 :=
    fun st2 r2 => foldDelta_countP_zero _ Ship.uid (shipAct_targetUid rng) _ st2 r2 tk.uid _
      (fun c hc => (classifiers_false_of_ne hc).2.2.2.2.1) hshipm
  have hshipsG : ∀ (st2 : AgentState) (r2 : Nat),
      (foldDelta (shipAct rng) st2 r2 (myinfo.ships.getD [])).countP
        (isGotoFor tk.uid) = 0 :=
    fun st2 r2 => foldDelta_countP_zero _ Ship.uid (shipAct_targetUid rng) _ st2 r2 tk.uid _
      (fun c hc => (classifiers_false_of_ne hc).2.2.2.2.2.1) hshipm
  have hjetSH : (jetCmds myinfo (powerTarget team info)).countP
      (isSetHeadingFor tk.uid) = 0 :=
    jetCmds_countP_zero _ _ _ (fun c hc => by
      cases c <;> simp_all [isGotoCmd, isSetHeadingFor])
  have hjetG : (jetCmds myinfo (powerTarget team info)).countP (isGotoFor tk.uid) = 0 :=
    List.countP_eq_zero.mpr (fun c hc => by simp [hjetm c hc])
  have hstratSH : ∀ (st2 : AgentState) (r2 : Nat),
      (foldDelta (stratAct (phaseOf t) rng) st2 r2 bases).countP
        (isSetHeadingFor tk.uid) = 0 :=
    fun st2 r2 => stratDelta_countP_zero _ _ _ _ _ _
      (fun c hc => (unit_classifiers_false_of_isBuild hc).1)
  have hstratG : ∀ (st2 : AgentState) (r2 : Nat),
      (foldDelta (stratAct (phaseOf t) rng) st2 r2 bases).countP
        (isGotoFor tk.uid) = 0 :=
    fun st2 r2 => stratDelta_countP_zero _ _ _ _ _ _
      (fun c hc => (unit_classifiers_false_of_isBuild hc).2.1)
  refine ⟨?_, ?_, ?_⟩
  · intro hpos
    have hcT := tanksDelta_heading_count team info rng tanks
      (foldState (stratAct (phaseOf t) rng) st ridx bases)
      (foldRidx (stratAct (phaseOf t) rng) st ridx bases) tk hnd htk
      (by rw [hS1prev, hpos]; exact hprev) hstop
    refine ⟨?_, ?_, ?_⟩
    · rw [hcmds, htksD]
      simp only [List.countP_append]
      rw [hcT.1, hstratSH, hshipsSH, hjetSH]
    · rw [hcmds, htksD]
      simp only [List.countP_append]
      rw [hcT.2, hstratG, hshipsG, hjetG]
    · intro c hcmem v hveq
      subst hveq
      rw [hcmds, htksD] at hcmem
      rcases List.mem_append.mp hcmem with hc1 | hc2
      · have := stratDelta_all_builds (phaseOf t) rng bases st ridx _ hc1
        simp [Command.isBuild] at this
      rcases List.mem_append.mp hc2 with hc2 | hc3
      · exact tanksDelta_heading_range team info rng hrng tanks _ _ _ hc2 tk.uid v rfl
      rcases List.mem_append.mp hc3 with hc3 | hc4
      · exact shipsDelta_heading_range rng hrng (myinfo.ships.getD []) _ _ _ hc3 tk.uid v rfl
      · have := jetCmds_all_goto myinfo (powerTarget team info) _ hc4
        simp [isGotoCmd] at this
  · intro hmoved hbne
    rcases pySorted_head_isSome (fun b => (b.x - tk.x) ^ 2 + (b.y - tk.y) ^ 2) hbne
      with ⟨nb, hnb⟩
    have hmin := pySorted_head_min hnb
    refine ⟨nb, hmin.1, hmin.2, ?_⟩
    intro hfail
    have hmem := tanksDelta_goto_mem team info rng tanks
      (foldState (stratAct (phaseOf t) rng) st ridx bases)
      (foldRidx (stratAct (phaseOf t) rng) st ridx bases) tk prev nb hnd htk
      (by rw [hS1prev]; exact hprev) hstop hmoved hnb hfail
    rw [hcmds, htksD]
    exact List.mem_append_right _ (List.mem_append_left _ hmem)
  · have hprevAll : st'.previous_positions =
        posFold Ship.uid Ship.position (myinfo.ships.getD [])
          (posFold Tank.uid Tank.position (myinfo.tanks.getD []) st.previous_positions) := by
      rw [hst, ships_foldState, tanks_foldState]
      simp only []
      rw [hS1prev]
    rw [hprevAll, posFold_not_mem _ _ _ _ _ hshipm, htksD,
      posFold_mem_nodup _ _ _ _ tk hnd htk]

/-- The witness tank for C5: tracked at its own position, not stopped. -/
def c5WitnessTank : Tank := { uid := 7, x := 3, y := 4, stopped := false, goto_fails := false }

/-- The witness agent state for C5: the tank is already tracked. -/
def c5WitnessSt : AgentState :=
  { previous_positions := upd (fun _ => none) 7 (3, 4),
    ntanks := fun _ => none, nships := fun _ => none }

/-- The witness snapshot for C5. -/
def c5WitnessInfo : List (String × TeamRecord) :=
  [("Me", { bases := some [], tanks := some [c5WitnessTank], ships := none, jets := none })]

/-- The witness random stream for C5. -/
def c5WitnessRng : Nat → ℚ := fun _ => 1/2

/-- Witness for C5: the stuck tracked tank gets exactly one heading and no
navigation. -/
theorem c5_tank_behavior_witness :
    ([Command.set_heading 7 (c5WitnessRng 0 * 360)] : List Command).countP
        (isSetHeadingFor 7) = 1 ∧
      ([Command.set_heading 7 (c5WitnessRng 0 * 360)] : List Command).countP
        (isGotoFor 7) = 0 := by
  have h := (c5_tank_behavior c5WitnessSt "Me" 0 0 c5WitnessInfo c5WitnessRng 0
    _ [Command.set_heading 7 (c5WitnessRng 0 * 360)] _ _ [c5WitnessTank] c5WitnessTank (3, 4)
    rfl (fun i => ⟨by norm_num [c5WitnessRng], by norm_num [c5WitnessRng]⟩) rfl rfl
    (by decide) (List.mem_singleton_self _) rfl rfl
    (by intro sp hsp; simp at hsp) (by intro j hj; simp at hj)).1 rfl
  exact ⟨h.1, h.2.1⟩

/-! C6 -/

/-- C6: a tracked ship that did not move converts to a base when it is more
than 20 from its owner, or gets exactly one random heading in [0, 360) when
it is not, never both; and its position is recorded. -/
theorem c6_ship_behavior (st : AgentState) (team : String) (t dt : ℚ)
    (info : List (String × TeamRecord)) (rng : Nat → ℚ) (ridx : Nat)
    (st' : AgentState) (cmds : List Command) (r' : Nat)
    (myinfo : TeamRecord) (ships : List Ship) (sp : Ship)
    (hrun : run st team t dt info rng ridx = Except.ok (st', cmds, r'))
    (hrng : ∀ i, 0 ≤ rng i ∧ rng i < 1)
    (hlk : info.lookup team = some myinfo)
    (hsps : myinfo.ships = some ships)
    (hnd : (ships.map Ship.uid).Nodup)
    (hspm : sp ∈ ships)
    (hprev : st.previous_positions sp.uid = some sp.position)
    (htank : ∀ tk ∈ myinfo.tanks.getD [], tk.uid ≠ sp.uid)
    (hjet : ∀ j ∈ myinfo.jets.getD [], j.uid ≠ sp.uid) :
    (sp.get_distance sp.owner_x sp.owner_y > 20 →
      cmds.countP (isConvertFor sp.uid) = 1 ∧
        cmds.countP (isSetHeadingFor sp.uid) = 0) ∧
    (¬ sp.get_distance sp.owner_x sp.owner_y > 20 →
      cmds.countP (isSetHeadingFor sp.uid) = 1 ∧
        cmds.countP (isConvertFor sp.uid) = 0 ∧
        (∀ c ∈ cmds, ∀ v : ℚ, c = Command.set_heading sp.uid v → 0 ≤ v ∧ v < 360)) ∧
    st'.previous_positions sp.uid = some sp.position := by
  rcases run_ok_decomp st team t dt info rng ridx st' cmds r' hrun with
    ⟨myinfo2, bases, hlk2, hbs, _, hmain⟩
  rw [hlk] at hlk2
  obtain rfl : myinfo = myinfo2 := by injection hlk2
  obtain ⟨hst, _, hcmds⟩ := hmain
  have hspsD : myinfo.ships.getD [] = ships := by rw [hsps]; rfl
  have hS1prev : (foldState (stratAct (phaseOf t) rng) st ridx bases).previous_positions =
      st.previous_positions :=
    foldState_prev_of_acts (stratAct (phaseOf t) rng) (stratAct_prev (phaseOf t) rng)
      bases st ridx
  have htankm : sp.uid ∉ (myinfo.tanks.getD []).map Tank.uid :=
    not_mem_map_of_ne Tank.uid htank
  have hS2prev : (foldState (tankAct team info rng)
      (foldState (stratAct (phaseOf t) rng) st ridx bases)
      (foldRidx (stratAct (phaseOf t) rng) st ridx bases)
      (myinfo.tanks.getD [])).previous_positions sp.uid = some sp.position := by
    rw [tanks_foldState]
    show posFold Tank.uid Tank.position (myinfo.tanks.getD [])
      (foldState (stratAct (phaseOf t) rng) st ridx bases).previous_positions sp.uid =
        some sp.position
    rw [posFold_not_mem _ _ _ _ _ htankm, hS1prev]
    exact hprev
  have hcount := shipsDelta_stuck_count rng ships
    (foldState (tankAct team info rng)
      (foldState (stratAct (phaseOf t) rng) st ridx bases)
      (foldRidx (stratAct (phaseOf t) rng) st ridx bases) (myinfo.tanks.getD []))
    (foldRidx (tankAct team info rng)
      (foldState (stratAct (phaseOf t) rng) st ridx bases)
      (foldRidx (stratAct (phaseOf t) rng) st ridx bases) (myinfo.tanks.getD []))
    sp hnd hspm hS2prev
  have hstratC : ∀ (st2 : AgentState) (r2 : Nat),
      (foldDelta (stratAct (phaseOf t) rng) st2 r2 bases).countP (isConvertFor sp.uid) = 0 :=
    fun st2 r2 => stratDelta_countP_zero _ _ _ _ _ _
      (fun c hc => (unit_classifiers_false_of_isBuild hc).2.2.2)
  have hstratSH : ∀ (st2 : AgentState) (r2 : Nat),
      (foldDelta (stratAct (phaseOf t) rng) st2 r2 bases).countP
        (isSetHeadingFor sp.uid) = 0 :=
    fun st2 r2 => stratDelta_countP_zero _ _ _ _ _ _
      (fun c hc => (unit_classifiers_false_of_isBuild hc).1)
  have htanksC : ∀ (st2 : AgentState) (r2 : Nat),
      (foldDelta (tankAct team info rng) st2 r2 (myinfo.tanks.getD [])).countP
        (isConvertFor sp.uid) = 0 := by
    intro st2 r2
    rw [List.countP_eq_zero]
    intro c hc
    rcases foldDelta_mem _ (myinfo.tanks.getD []) st2 r2 c hc with ⟨tk, _, st3, r3, hmem⟩
    rcases tankAct_cmds_shape team info rng st3 r3 tk c hmem with rfl | ⟨x, y, rfl⟩ <;>
      simp [isConvertFor]
  have htanksSH : ∀ (st2 : AgentState) (r2 : Nat),
      (foldDelta (tankAct team info rng) st2 r2 (myinfo.tanks.getD [])).countP
        (isSetHeadingFor sp.uid) = 0 :=
    fun st2 r2 => foldDelta_countP_zero _ Tank.uid (tankAct_targetUid team info rng) _ st2 r2
      sp.uid _ (fun c hc => (classifiers_false_of_ne hc).2.2.2.2.1) htankm
  have hjetC : (jetCmds myinfo (powerTarget team info)).countP (isConvertFor sp.uid) = 0 :=
    jetCmds_countP_zero _ _ _ (fun c hc => by
      cases c <;> simp_all [isGotoCmd, isConvertFor])
  have hjetSH : (jetCmds myinfo (powerTarget team info)).countP
      (isSetHeadingFor sp.uid) = 0 :=
    jetCmds_countP_zero _ _ _ (fun c hc => by
      cases c <;> simp_all [isGotoCmd, isSetHeadingFor])
  refine ⟨?_, ?_, ?_⟩
  · intro hfar
    have h1 := hcount.1 hfar
    constructor
    · rw [hcmds, hspsD]
      simp only [List.countP_append]
      rw [h1.1, hstratC, htanksC, hjetC]
    · rw [hcmds, hspsD]
      simp only [List.countP_append]
      rw [h1.2, hstratSH, htanksSH, hjetSH]
  · intro hnear
    have h1 := hcount.2 hnear
    refine ⟨?_, ?_, ?_⟩
    · rw [hcmds, hspsD]
      simp only [List.countP_append]
      rw [h1.1, hstratSH, htanksSH, hjetSH]
    · rw [hcmds, hspsD]
      simp only [List.countP_append]
      rw [h1.2, hstratC, htanksC, hjetC]
    · intro c hcmem v hveq
      subst hveq
      rw [hcmds, hspsD] at hcmem
      rcases List.mem_append.mp hcmem with hc1 | hc2
      · have := stratDelta_all_builds (phaseOf t) rng bases st ridx _ hc1
        simp [Command.isBuild] at this
      rcases List.mem_append.mp hc2 with hc2 | hc3
      · exact tanksDelta_heading_range team info rng hrng (myinfo.tanks.getD []) _ _ _ hc2
          sp.uid v rfl
      rcases List.mem_append.mp hc3 with hc3 | hc4
      · exact shipsDelta_heading_range rng hrng ships _ _ _ hc3 sp.uid v rfl
      · have := jetCmds_all_goto myinfo (powerTarget team info) _ hc4
        simp [isGotoCmd] at this
  · have hprevAll : st'.previous_positions =
        posFold Ship.uid Ship.position (myinfo.ships.getD [])
          (posFold Tank.uid Tank.position (myinfo.tanks.getD []) st.previous_positions) := by
      rw [hst, ships_foldState, tanks_foldState]
      simp only []
      rw [hS1prev]
    rw [hprevAll, hspsD, posFold_mem_nodup _ _ _ _ sp hnd hspm]

/-- The witness ship for C6: tracked, stuck, far from its owner. -/
def c6WitnessShip : Ship :=
  { uid := 4
    x := 30
    y := 0
    owner_x := 0
    owner_y := 0
    get_distance := fun _ _ => 30 }

/-- The witness agent state for C6: the ship is already tracked. -/
def c6WitnessSt : AgentState :=
  { previous_positions := upd (fun _ => none) 4 (30, 0),
    ntanks := fun _ => none, nships := fun _ => none }

/-- The witness snapshot for C6. -/
def c6WitnessInfo : List (String × TeamRecord) :=
  [("Me", { bases := some [], tanks := none, ships := some [c6WitnessShip], jets := none })]

/-- Witness for C6: the far stuck ship converts exactly once and gets no
heading. -/
theorem c6_ship_behavior_witness :
    ([Command.convert_to_base 4] : List Command).countP (isConvertFor 4) = 1 ∧
      ([Command.convert_to_base 4] : List Command).countP (isSetHeadingFor 4) = 0 :=
  (c6_ship_behavior c6WitnessSt "Me" 0 0 c6WitnessInfo (fun _ => 0) 0
    _ [Command.convert_to_base 4] _ _ [c6WitnessShip] c6WitnessShip rfl
    (fun i => ⟨le_refl 0, by norm_num⟩) rfl rfl (by decide)
    (List.mem_singleton_self _) rfl
    (by intro tk htk; simp at htk) (by intro j hj; simp at hj)).1 (by norm_num [c6WitnessShip])

/-! C4 -/

theorem lookup_mem {info : List (String × TeamRecord)} {team : String} {myinfo : TeamRecord}
    (h : info.lookup team = some myinfo) : (team, myinfo) ∈ info := by
  rcases List.lookup_eq_some_iff.mp h with ⟨l1, l2, rfl, _⟩
  exact List.mem_append_right l1 (List.mem_cons_self _ _)

theorem one_lt_length_of_two_mem {α : Type} {l : List α} {a b : α}
    (ha : a ∈ l) (hb : b ∈ l) (hne : a ≠ b) : 1 < l.length := by
  cases l with
  | nil => simp at ha
  | cons x xs =>
    cases xs with
    | nil =>
      rw [List.mem_singleton] at ha hb
      exact absurd (ha.trans hb.symm) hne
    | cons y ys => simp

theorem jetCmds_none_target (myinfo : TeamRecord) : jetCmds myinfo none = [] := by
  unfold jetCmds
  cases myinfo.jets <;> rfl

theorem tankAct_no_goto (team : String) (info : List (String × TeamRecord)) (rng : Nat → ℚ)
    (hb : enemyBases team info = []) (st : AgentState) (r : Nat) (tk : Tank) :
    ∀ c ∈ (tankAct team info rng st r tk).2.1, isGotoCmd c = false := by
  intro c hc
  simp only [tankAct, hb] at hc
  repeat' split at hc
  all_goals simp_all [isGotoCmd, pySorted]

/-- With one enemy team present, the live target is computed from a
maximal-power enemy team. -/
theorem powerTarget_spec (team : String) (info : List (String × TeamRecord))
    (hlen : 1 < info.length)
    (hne : (info.filter fun p => p.1 ≠ team).map Prod.snd ≠ []) :
    ∃ tm ∈ (info.filter fun p => p.1 ≠ team).map Prod.snd,
      (∀ tm2 ∈ (info.filter fun p => p.1 ≠ team).map Prod.snd,
        determine_power tm2 ≤ determine_power tm) ∧
      (tm.bases.getD [] = [] → powerTarget team info = some (75, 75)) ∧
      (tm.bases.getD [] ≠ [] →
        ∃ b ∈ tm.bases.getD [],
          (∀ b2 ∈ tm.bases.getD [], determine_base_power b2 ≤ determine_base_power b) ∧
          powerTarget team info = some (b.x, b.y)) := by
  rcases pySorted_getLast_isSome determine_power hne with ⟨se, hse⟩
  have hmax := pySorted_getLast_max hse
  refine ⟨se, hmax.1, hmax.2, ?_, ?_⟩
  · intro hnob
    unfold powerTarget
    rw [if_pos hlen]
    simp only [hse]
    cases hcb : se.bases with
    | none => simp [hcb]
    | some bs =>
      rw [hcb] at hnob
      simp only [Option.getD_some] at hnob
      subst hnob
      simp [hcb, pySorted]
  · intro hbne
    cases hcb : se.bases with
    | none => rw [hcb] at hbne; simp at hbne
    | some bs =>
      rw [hcb] at hbne
      simp only [Option.getD_some] at hbne
      rcases pySorted_getLast_isSome determine_base_power hbne with ⟨sb, hsb⟩
      have hbmax := pySorted_getLast_max hsb
      refine ⟨sb, by simpa using hbmax.1, by simpa using hbmax.2, ?_⟩
      unfold powerTarget
      rw [if_pos hlen]
      simp only [hse, hcb]
      rw [show (some bs).isSome = true from rfl]
      simp only [Option.getD_some, Bool.true_eq_false, if_false]
      rw [hsb]

/-- With no enemy team in the snapshot there is no live target. -/
theorem powerTarget_no_enemies (team : String) (info : List (String × TeamRecord))
    (hne : (info.filter fun p => p.1 ≠ team).map Prod.snd = []) :
    powerTarget team info = none := by
  unfold powerTarget
  split
  · rw [hne]
    rfl
  · rfl

/-- C4: with no enemy team no unit at all receives a navigation command;
with at least one enemy team the live target is the position of a
maximal-base-power base of a maximal-power enemy team, or (75, 75) when
that team has no bases, and every jet is sent to it. -/
theorem c4_jet_targeting (st : AgentState) (team : String) (t dt : ℚ)
    (info : List (String × TeamRecord)) (rng : Nat → ℚ) (ridx : Nat)
    (st' : AgentState) (cmds : List Command) (r' : Nat) (myinfo : TeamRecord)
    (hrun : run st team t dt info rng ridx = Except.ok (st', cmds, r'))
    (hlk : info.lookup team = some myinfo) :
    ((info.filter fun p => p.1 ≠ team).map Prod.snd = [] →
      powerTarget team info = none ∧ cmds.countP isGotoCmd = 0) ∧
    ((info.filter fun p => p.1 ≠ team).map Prod.snd ≠ [] →
      ∃ tm ∈ (info.filter fun p => p.1 ≠ team).map Prod.snd,
        (∀ tm2 ∈ (info.filter fun p => p.1 ≠ team).map Prod.snd,
          determine_power tm2 ≤ determine_power tm) ∧
        (tm.bases.getD [] = [] → powerTarget team info = some (75, 75)) ∧
        (tm.bases.getD [] ≠ [] →
          ∃ b ∈ tm.bases.getD [],
            (∀ b2 ∈ tm.bases.getD [], determine_base_power b2 ≤ determine_base_power b) ∧
            powerTarget team info = some (b.x, b.y))) ∧
    (∀ jets : List Jet, myinfo.jets = some jets → ∀ j ∈ jets, ∀ tp : ℚ × ℚ,
      powerTarget team info = some tp → Command.goto j.uid tp.1 tp.2 ∈ cmds) := by
  rcases run_ok_decomp st team t dt info rng ridx st' cmds r' hrun with
    ⟨myinfo2, bases, hlk2, hbs, _, hmain⟩
  rw [hlk] at hlk2
  obtain rfl : myinfo = myinfo2 := by injection hlk2
  obtain ⟨_, _, hcmds⟩ := hmain
  refine ⟨?_, ?_, ?_⟩
  · intro hnee
    have hpt := powerTarget_no_enemies team info hnee
    refine ⟨hpt, ?_⟩
    have hbempty : enemyBases team info = [] := by
      unfold enemyBases
      have : info.filter (fun p => p.1 ≠ team) = [] := by
        cases hf : info.filter (fun p => p.1 ≠ team) with
        | nil => rfl
        | cons q qs => rw [hf] at hnee; simp at hnee
      rw [this]
      rfl
    rw [hcmds]
    simp only [List.countP_append]
    rw [stratDelta_countP_zero _ _ _ _ _ _
        (fun c hc => (unit_classifiers_false_of_isBuild (v := 0) hc).2.2.1),
      List.countP_eq_zero.mpr (fun c hc => by
        rcases foldDelta_mem _ (myinfo.tanks.getD []) _ _ c hc with ⟨tk, _, st3, r3, hmem⟩
        simp [tankAct_no_goto team info rng hbempty st3 r3 tk c hmem]),
      List.countP_eq_zero.mpr (fun c hc => by
        rcases foldDelta_mem _ (myinfo.ships.getD []) _ _ c hc with ⟨sp, _, st3, r3, hmem⟩
        simp [(shipAct_not_build rng st3 r3 sp c hmem).2]),
      hpt, jetCmds_none_target]
    rfl
  · intro hnee
    rcases List.exists_mem_of_ne_nil _ hnee with ⟨tm0, htm0⟩
    rcases List.mem_map.mp htm0 with ⟨p0, hp0f, _⟩
    have hp0 := List.mem_of_mem_filter hp0f
    have hp0ne : p0.1 ≠ team := by
      have := List.of_mem_filter hp0f
      simpa using this
    have hlen : 1 < info.length :=
      one_lt_length_of_two_mem (lookup_mem hlk) hp0
        (fun hc => hp0ne (by rw [← hc]))
    exact powerTarget_spec team info hlen hnee
  · intro jets hjets j hj tp hpt
    rw [hcmds]
    refine List.mem_append_right _ (List.mem_append_right _ (List.mem_append_right _ ?_))
    unfold jetCmds
    rw [hjets, hpt]
    exact List.mem_map_of_mem _ hj

/-- The witness enemy base for C4. -/
def c4EnemyBase : Base :=
  { uid := 2, x := 10, y := 10, crystal := 20, mines := 1, cost := fun _ => 50 }

/-- The witness snapshot for C4: one jet of mine, one enemy base. -/
def c4WitnessInfo : List (String × TeamRecord) :=
  [("Me", { bases := some [], tanks := none, ships := none, jets := some [{ uid := 9 }] }),
   ("Enemy", { bases := some [c4EnemyBase], tanks := none, ships := none, jets := none })]

/-- Witness for C4: the jet is sent to the strongest enemy's base. -/
theorem c4_jet_targeting_witness :
    Command.goto 9 10 10 ∈ [Command.goto 9 10 10] :=
  (c4_jet_targeting initState "Me" 0 0 c4WitnessInfo (fun _ => 0) 0
      _ [Command.goto 9 10 10] _ _ rfl rfl).2.2
    [{ uid := 9 }] rfl { uid := 9 } (List.mem_singleton_self _) (10, 10) rfl

/-! C9 -/

/-- The single-team, single-tank snapshot record of C9's scenario. -/
def c9Record (tk : Tank) : TeamRecord :=
  { bases := some []
    tanks := some [tk]
    ships := none
    jets := none }

/-- C9 (amended): provided the tank is already tracked at its current
position before the first call, each of two successive calls issues exactly
one heading command on it, the two values being fresh consecutive draws of
the random stream (so distinct stream values give distinct headings).  (As
stated the claim is false: on a fresh agent instance the first call only
records the position and issues nothing.) -/
theorem c9_two_stuck_runs (st : AgentState) (team : String) (t1 t2 dt1 dt2 : ℚ)
    (info : List (String × TeamRecord)) (rng : Nat → ℚ) (ridx : Nat) (tk : Tank)
    (hinfo : info = [(team, c9Record tk)])
    (hprev : st.previous_positions tk.uid = some tk.position)
    (hstop : tk.stopped = false) :
    ∃ st1 : AgentState,
      run st team t1 dt1 info rng ridx =
        Except.ok (st1, [Command.set_heading tk.uid (rng ridx * 360)], ridx + 1) ∧
      run st1 team t2 dt2 info rng (ridx + 1) =
        Except.ok
          ({ st1 with
              previous_positions := upd st1.previous_positions tk.uid tk.position },
            [Command.set_heading tk.uid (rng (ridx + 1) * 360)], ridx + 2) ∧
      (rng ridx ≠ rng (ridx + 1) → rng ridx * 360 ≠ rng (ridx + 1) * 360) := by
  subst hinfo
  have key : ∀ (st0 : AgentState) (t0 dt0 : ℚ) (r0 : Nat),
      st0.previous_positions tk.uid = some tk.position →
      run st0 team t0 dt0 [(team, c9Record tk)] rng r0 =
        Except.ok
          ({ st0 with
              previous_positions := upd st0.previous_positions tk.uid tk.position },
            [Command.set_heading tk.uid (rng r0 * 360)], r0 + 1) := by
    intro st0 t0 dt0 r0 hp0
    have hlkp : List.lookup team [(team, c9Record tk)] = some (c9Record tk) :=
      List.lookup_cons_self
    rw [run]
    have hstrat : strategyFor (phaseOf t0) st0 team [(team, c9Record tk)] rng r0 =
        Except.ok (st0, [], r0) := by
      cases phaseOf t0 <;>
        simp [strategyFor, strategy_early, strategy_midgame, strategy_lategame, hlkp,
          c9Record]
    rw [hstrat, hlkp]
    have hdead : deadTarget team [(team, c9Record tk)] = Except.ok none := rfl
    rw [hdead]
    dsimp only
    rw [tanksPhase_eq]
    rw [show ((c9Record tk).tanks.getD []) = [tk] from rfl]
    rw [List.foldl_cons, List.foldl_nil, mkStep_eq,
      tankAct_heading team _ rng st0 r0 tk hp0 hstop]
    rw [shipsPhase_eq]
    simp [jetsPhase, powerTarget, c9Record]
  refine ⟨_, key st t1 dt1 ridx hprev, ?_, ?_⟩
  · apply key
    exact upd_self _ _ _
  · intro hne hc
    exact hne (mul_right_cancel₀ (by norm_num) hc)

/-- The tank of C9's counterexample. -/
def c9CounterTank : Tank := { uid := 7, x := 3, y := 4, stopped := false, goto_fails := false }

/-- An agent state already tracking that tank at its current position. -/
def c9WitnessState : AgentState :=
  { initState with previous_positions := upd initState.previous_positions 7 (3, 4) }

/-- A concrete random stream for the C9 witness. -/
def c9Rng : Nat → ℚ := fun n => n

/-- Witness for C9 (amended): two consecutive calls on the tracked,
unmoved, unstopped tank each issue exactly one heading command, drawn from
consecutive stream positions. -/
theorem c9_two_stuck_runs_witness :
    ([("Me", c9Record c9CounterTank)] : List (String × TeamRecord)) =
        [("Me", c9Record c9CounterTank)] ∧
    c9WitnessState.previous_positions c9CounterTank.uid = some c9CounterTank.position ∧
    c9CounterTank.stopped = false ∧
    ∃ st1 : AgentState,
      run c9WitnessState "Me" 0 0 [("Me", c9Record c9CounterTank)] c9Rng 0 =
        Except.ok (st1, [Command.set_heading c9CounterTank.uid (c9Rng 0 * 360)], 0 + 1) ∧
      run st1 "Me" 5 5 [("Me", c9Record c9CounterTank)] c9Rng (0 + 1) =
        Except.ok
          ({ st1 with
              previous_positions :=
                upd st1.previous_positions c9CounterTank.uid c9CounterTank.position },
            [Command.set_heading c9CounterTank.uid (c9Rng (0 + 1) * 360)], 0 + 2) ∧
      (c9Rng 0 ≠ c9Rng (0 + 1) → c9Rng 0 * 360 ≠ c9Rng (0 + 1) * 360) :=
  ⟨rfl, rfl, rfl,
    c9_two_stuck_runs c9WitnessState "Me" 0 5 0 5 [("Me", c9Record c9CounterTank)]
      c9Rng 0 c9CounterTank rfl rfl rfl⟩

/-- The snapshot of C9's counterexample. -/
def c9CounterInfo : List (String × TeamRecord) :=
  [("Me", { bases := some [], tanks := some [c9CounterTank], ships := none, jets := none })]

/-- C9 counterexample: on a fresh agent instance the first of the two calls
issues no heading command at all on the unmoved, unstopped tank, so the two
calls do not yield one heading each. -/
theorem c9_counterexample :
    runCmds initState "Me" 0 0 c9CounterInfo (fun _ => 1/2) 0 = Except.ok [] ∧
      ([] : List Command).countP (isSetHeadingFor 7) = 0 :=
  ⟨rfl, rfl⟩

end PlayerAi
